import Mathlib

/-!
# genexamples: the `src` command of the example generator

A shallow embedding of `internal/cmd/generate/commands/genexamples/command.go`
(`SrcCommand.Execute` and `SrcCommand.processExample`) over an explicit model of
the process environment: a file system, the two standard streams and the
functions of other packages the command calls.

* Byte streams (`io.Reader`, `[]byte`, file contents) are lists of bytes.
* The file system maps path strings to directories and regular files. Two paths are
  the same file when they are the same string. `os.MkdirAll` makes the directory and
  every ancestor of it that is missing, and fails on a regular file in the way. Opening
  a file for writing fails on a directory and in a directory that does not exist;
  writing to an open file and closing it succeed.
* A standard stream accepts every write or none. Standard error is a log of the write
  calls made on it, one entry per call, tagged by the call (`fmt.Fprint`,
  `fmt.Fprintln`, `fmt.Fprintf`, `io.Copy`, `utils.PrintSourceWithErr`).
* Functions of this repository that live in other files (`Example`,
  `SrcGenerator`, package `utils`) and of external libraries
  (`imports.Process`, `encoding/json`, `time`) are fields of `Env`, so every theorem
  holds for all of their implementations.
* `filepath.Join` is modelled after the Go standard library on Unix.
-/

namespace GenExamples

/-- A finite byte sequence: the content of a reader, a buffer or a file. -/
abbrev Bytes := List UInt8

/-- Modelled from the spec: the `Example` record, whose declaration is in another file
of the package. The source reads the field `Digest`; the spec lists the other fields:
identifier fields (a human-readable slug), an enabled flag and a tagged source body. The
committed artefacts under `.doc/examples/src` show two more, which the rendered unit
quotes in a comment: the location of the example in the documentation and the lines of
its console source. -/
structure Example where
  Slug : String
  Digest : String
  EnabledFlag : Bool
  Body : String
  Location : String := ""
  Source : List String := []
deriving DecidableEq, Repr

/-- One write call on standard error, tagged by the call that made it. -/
inductive ErrEvent where
  | Fprint (s : String)
  | Fprintln (s : String)
  | Fprintf (s : String)
  | Copy (b : Bytes)
  | PrintSourceWithErr (src : Bytes) (err : String)
deriving DecidableEq, Repr

/-- The state of the process environment.
`rendered` is a ghost log of the examples whose `SrcGenerator.Output()` was taken. -/
structure World where
  dirs : String → Bool
  files : String → Option Bytes
  stdout : Bytes
  stdoutOk : Bool
  stderr : List ErrEvent
  stderrOk : Bool
  rendered : List Example

/-- The functions the command calls that are defined elsewhere. -/
structure Env where
  /-- The method `Example.Enabled()` -/
  Enabled : Example → Bool
  /-- The method `Example.Executable()` -/
  Executable : Example → Bool
  /-- The method `Example.ID()` -/
  ID : Example → String
  /-- The method `SrcGenerator.Filename()` -/
  Filename : Example → String
  /-- The method `SrcGenerator.Output()`: the bytes the returned reader yields -/
  Output : Example → Bytes
  /-- The function `utils.IsTTY()` -/
  IsTTY : Bool
  /-- The function `utils.TerminalWidth()` -/
  TerminalWidth : Nat
  /-- The function `utils.Chromatize(r)`: how many bytes it reads from `r`, and its result -/
  Chromatize : Bytes → Nat × Except String Bytes
  /-- The call `imports.Process("example_test.go", src, opts)` with the options of the source -/
  Process : Bytes → Except String Bytes
  /-- The call `json.NewDecoder(f).Decode(&examples)` on the bytes of the input file -/
  Decode : Bytes → Except String (List Example)
  /-- The `%q` verb of package `fmt` -/
  Quote : String → String
  /-- The call `time.Since(start).Truncate(time.Millisecond)`, formatted -/
  Elapsed : String

/-- The command for generating Go source code. -/
structure SrcCommand where
  Input : String
  Output : String
  DebugSource : Bool
  ColorizeSource : Bool
  GofmtSource : Bool

/-! ## Package `path/filepath` (Unix) -/

namespace filepath

/-- The elements of a path between its slashes, empty ones included. -/
def elems : List Char → List (List Char)
  | [] => [[]]
  | c :: cs =>
    if c = '/' then [] :: elems cs
    else
      match elems cs with
      | [] => [[c]]
      | x :: xs => (c :: x) :: xs

/-- One element of `Clean`: the stack holds the elements kept so far, last first. -/
def cleanStep (rooted : Bool) (stack : List (List Char)) (el : List Char) :
    List (List Char) :=
  if el = [] ∨ el = ['.'] then stack
  else if el = ['.', '.'] then
    match stack with
    | [] => if rooted then [] else [el]
    | top :: rest => if top = ['.', '.'] then el :: stack else rest
  else el :: stack

/-- The elements `Clean` keeps, last first. -/
def cleanStack (path : List Char) : List (List Char) :=
  (elems path).foldl (cleanStep (path.head? = some '/')) []

/-- The function `Clean` on the characters of a path. -/
def cleanChars (path : List Char) : List Char :=
  if path = [] then ['.']
  else
    let body := List.intercalate ['/'] (cleanStack path).reverse
    if path.head? = some '/' then '/' :: body
    else if body = [] then ['.'] else body

/-- The call `filepath.Clean`: the shortest path equivalent to `path` by lexical processing. -/
def Clean (path : String) : String := String.mk (cleanChars path.toList)

/-- The call `filepath.Join`: joins the elements from the first non-empty one on with slashes
and cleans the result; all elements empty gives the empty string. -/
def Join (elem : List String) : String :=
  match elem.dropWhile (fun s => s = "") with
  | [] => ""
  | es => Clean (String.mk (List.intercalate ['/'] (es.map String.toList)))

end filepath

/-! ## Package `os` and the standard streams -/

namespace os

/-- The proper ancestors of a cleaned path, nearest the root first: the text before each
of its slashes, the root apart. The characters already passed are in `seen`, last
first. -/
def ancestorsFrom : List Char → List Char → List String
  | _, [] => []
  | seen, c :: cs =>
    if c = '/' ∧ seen ≠ [] then String.mk seen.reverse :: ancestorsFrom (c :: seen) cs
    else ancestorsFrom (c :: seen) cs

/-- The proper ancestors of a cleaned path: `out` and `out/src` for `out/src/a.go`. A path
of one element has none: its parent is the working directory or the root. -/
def ancestors (path : String) : List String := ancestorsFrom [] path.toList

/-- A path that names a directory in every state of the file system: the root, the
working directory and the directories above it. -/
def alwaysDir (path : String) : Bool :=
  path ≠ "" ∧
    (filepath.elems path.toList).all (fun el => el = [] ∨ el = ['.'] ∨ el = ['.', '.'])

/-- The recursion of `os.MkdirAll` over a path and its ancestors, the path first: a
directory that exists ends it, a regular file in the way is an error, and a missing
directory is made once its parent is there. A path the state does not record as a
directory counts as missing, so that afterwards every path of the chain is recorded. -/
def mkdirChain (w : World) : List String → Option String × World
  | [] => (none, w)
  | p :: up =>
    if w.dirs p then (none, w)
    else
      match w.files p with
      | some _ => (some ("mkdir " ++ p ++ ": not a directory"), w)
      | none =>
        match mkdirChain w up with
        | (some err, w1) => (some err, w1)
        | (none, w1) =>
          (none, { w1 with dirs := fun q => if q = p then true else w1.dirs q })

/-- The call `os.MkdirAll(path, perm)`: nothing to do when `path` is a directory, an
error when it or one of its ancestors is a regular file, otherwise the directory is
created along with the ancestors that are missing. -/
def MkdirAll (w : World) (path : String) : Option String × World :=
  mkdirChain w (path :: (ancestors path).reverse)

/-- The call `os.Open(name)`: the reader of a regular file yields its bytes, the reader of a
directory fails on the first read, a missing path cannot be opened. -/
def Open (w : World) (name : String) : Except String (Except String Bytes) :=
  match w.files name with
  | some b => .ok (.ok b)
  | none =>
    if w.dirs name then .ok (.error ("read " ++ name ++ ": is a directory"))
    else .error ("open " ++ name ++ ": no such file or directory")

/-- The error of `os.OpenFile(name, O_WRONLY|O_CREATE|O_TRUNC, perm)`, which the
directories decide: `name` is a directory, or its parent is not one (the error text does
not tell a missing parent from a parent that is a regular file). -/
def openError (dirs : String → Bool) (name : String) : Option String :=
  if dirs name || alwaysDir name then some ("open " ++ name ++ ": is a directory")
  else
    match (ancestors name).getLast? with
    | none => none
    | some parent =>
      if dirs parent || alwaysDir parent then none
      else some ("open " ++ name ++ ": no such file or directory")

/-- The call `os.OpenFile(name, O_WRONLY|O_CREATE|O_TRUNC, perm)`: fails on a directory
and under a parent that is not a directory, otherwise the file exists afterwards and is
empty. -/
def OpenFile (w : World) (name : String) : Option String × World :=
  match openError w.dirs name with
  | some err => (some err, w)
  | none => (none, { w with files := fun p => if p = name then some [] else w.files p })

/-- The call `io.Copy(f, r)` into the open file `name`: the bytes are appended to it. -/
def WriteFile (w : World) (name : String) (data : Bytes) : Option String × World :=
  match w.files name with
  | none => (some ("write " ++ name ++ ": bad file descriptor"), w)
  | some old =>
    (none, { w with files := fun p => if p = name then some (old ++ data) else w.files p })

/-- The call `f.Close()` on the file opened for writing. -/
def Close (w : World) (_name : String) : Option String × World := (none, w)

/-- The call `io.Copy(os.Stdout, r)`: an empty reader makes no write; a write fails when the
stream does not accept it. -/
def CopyStdout (w : World) (data : Bytes) : Option String × World :=
  if data = [] then (none, w)
  else if w.stdoutOk then (none, { w with stdout := w.stdout ++ data })
  else (some "write /dev/stdout: file already closed", w)

/-- The call `io.Copy(os.Stderr, r)`: an empty reader makes no write; a write fails when the
stream does not accept it. -/
def CopyStderr (w : World) (data : Bytes) : Option String × World :=
  if data = [] then (none, w)
  else if w.stderrOk then (none, { w with stderr := w.stderr ++ [ErrEvent.Copy data] })
  else (some "write /dev/stderr: file already closed", w)

/-- A `fmt.Fprint*(os.Stderr, ...)` or `utils.PrintSourceWithErr` call: its error is
not looked at by the caller, so a failing stream only loses the text. -/
def ErrWrite (w : World) (ev : ErrEvent) : World :=
  if w.stderrOk then { w with stderr := w.stderr ++ [ev] } else w

end os

/-- The call `strings.Repeat(s, count)`. -/
def stringsRepeat (s : String) (count : Nat) : String :=
  String.join (List.replicate count s)

/-- The separator line of the terminal: `strings.Repeat("━", utils.TerminalWidth())`. -/
def separator (env : Env) : String := stringsRepeat "━" env.TerminalWidth

/-- The escape code `code` when `utils.IsTTY()`, nothing otherwise:
`if utils.IsTTY() { fmt.Fprint(os.Stderr, code) }`. -/
def ttyEscape (env : Env) (code : String) (w : World) : World :=
  if env.IsTTY then os.ErrWrite w (ErrEvent.Fprint code) else w

/-! ## `SrcCommand.processExample` -/

/-- Lines 177-199: the normalization pass, when `GofmtSource` is set. -/
def gofmtStage (env : Env) (cmd : SrcCommand) (out : Bytes) (w : World) :
    Except String Bytes × World :=
  if cmd.GofmtSource then
    -- buf.ReadFrom(out)
    let buf := out
    match env.Process buf with
    | .error err =>
      if cmd.DebugSource then
        (.error err, os.ErrWrite w (ErrEvent.PrintSourceWithErr buf err))
      else (.error err, w)
    | .ok bout => (.ok bout, w)
  else (.ok out, w)

/-- Lines 201-236: the debug preview, when `DebugSource` is set. `tee` reads `out` and
writes what it reads to `buf`; the bytes not yet read are `out.drop n` once `n` bytes
are read. -/
def debugStage (env : Env) (cmd : SrcCommand) (out : Bytes) (w : World) :
    Except String Bytes × World :=
  if cmd.DebugSource then
    let w := ttyEscape env "\x1b[2m" w
    let w := os.ErrWrite w (ErrEvent.Fprintln (separator env))
    let w := ttyEscape env "\x1b[0m" w
    if cmd.ColorizeSource then
      -- utils.Chromatize(tee) reads from tee
      let n := (env.Chromatize out).1
      let buf := out.take n
      match (env.Chromatize out).2 with
      | .error err => (.error ("error syntax highligting the output: " ++ err), w)
      | .ok src =>
        match os.CopyStderr w src with
        | (some err, w) => (.error ("error copying output: " ++ err), w)
        | (none, w) =>
          -- io.Copy(os.Stderr, tee) reads the rest of tee
          match os.CopyStderr w (out.drop n) with
          | (some err, w) => (.error ("error copying output: " ++ err), w)
          | (none, w) =>
            let buf := buf ++ out.drop n
            let w := os.ErrWrite w (ErrEvent.Fprintf "\n\n")
            (.ok buf, w)
    else
      match os.CopyStderr w out with
      | (some err, w) => (.error ("error copying output: " ++ err), w)
      | (none, w) =>
        let buf := out
        let w := os.ErrWrite w (ErrEvent.Fprintf "\n\n")
        (.ok buf, w)
  else (.ok out, w)

/-- Lines 238-253: the write to standard output or to the artefact file. -/
def writeStage (cmd : SrcCommand) (fName : String) (out : Bytes) (w : World) :
    Option String × World :=
  if cmd.Output = "-" then
    match os.CopyStdout w out with
    | (some err, w) => (some ("error copying output: " ++ err), w)
    | (none, w) => (none, w)
  else
    match os.OpenFile w fName with
    | (some err, w) => (some ("error creating file: " ++ err), w)
    | (none, w) =>
      match os.WriteFile w fName out with
      | (some err, w) => (some ("error copying output: " ++ err), w)
      | (none, w) =>
        match os.Close w fName with
        | (some err, w) => (some ("error closing file: " ++ err), w)
        | (none, w) => (none, w)

/-- The path of the artefact of `e`: `filepath.Join(cmd.Output, "src", g.Filename())`. -/
def artefactPath (env : Env) (cmd : SrcCommand) (e : Example) : String :=
  filepath.Join [cmd.Output, "src", env.Filename e]

/-- The method `func (cmd *SrcCommand) processExample(e Example) error` -/
def SrcCommand.processExample (cmd : SrcCommand) (env : Env) (e : Example) (w : World) :
    Option String × World :=
  let fName := artefactPath env cmd e
  -- out := g.Output()
  let w := { w with rendered := w.rendered ++ [e] }
  let out := env.Output e
  match gofmtStage env cmd out w with
  | (.error err, w) => (some err, w)
  | (.ok out, w) =>
    match debugStage env cmd out w with
    | (.error err, w) => (some err, w)
    | (.ok out, w) => writeStage cmd fName out w

/-! ## `SrcCommand.Execute` -/

/-- The variables of `Execute` that the loop updates. -/
structure LoopState where
  world : World
  processed : Nat
  skipped : Nat

/-- The eligibility test of the loop: `e.Enabled() && e.Executable()`. -/
def eligible (env : Env) (e : Example) : Bool := env.Enabled e && env.Executable e

/-- Lines 143-150: the lines announcing an eligible example. -/
def announce (env : Env) (e : Example) (w : World) : World :=
  let w := ttyEscape env "\x1b[2m" w
  let w := os.ErrWrite w (ErrEvent.Fprintln (separator env))
  let w := os.ErrWrite w (ErrEvent.Fprintf
    ("Processing example " ++ env.Quote (env.ID e) ++ " @ " ++ e.Digest ++ "\n"))
  ttyEscape env "\x1b[0m" w

/-- Lines 141-158: `for _, e := range examples`. -/
def SrcCommand.loop (cmd : SrcCommand) (env : Env) : List Example → LoopState →
    Option String × LoopState
  | [], s => (none, s)
  | e :: es, s =>
    if eligible env e then
      match cmd.processExample env e (announce env e s.world) with
      | (some err, w) =>
        (some ("error processing example " ++ env.ID e ++ ": " ++ err),
          { s with world := w })
      | (none, w) =>
        SrcCommand.loop cmd env es
          { world := w, processed := s.processed + 1, skipped := s.skipped }
    else
      SrcCommand.loop cmd env es { s with skipped := s.skipped + 1 }

/-- Lines 123-128: the output directory, unless the output is standard output. -/
def SrcCommand.prepare (cmd : SrcCommand) (env : Env) (w : World) : Option String × World :=
  if cmd.Output ≠ "-" then
    let outputDir := filepath.Join [cmd.Output, "src"]
    match os.MkdirAll w outputDir with
    | (some err, w) =>
      (some ("error creating output directory " ++ env.Quote outputDir ++ ": " ++ err), w)
    | (none, w) => (none, w)
  else (none, w)

/-- Lines 130-139: the input file, opened and decoded. -/
def SrcCommand.load (cmd : SrcCommand) (env : Env) (w : World) : Except String (List Example) :=
  match os.Open w cmd.Input with
  | .error err => .error ("error reading input: " ++ err)
  | .ok f =>
    match (match f with
      | .error err => Except.error err
      | .ok data => env.Decode data) with
    | .error err => .error ("error decoding input: " ++ err)
    | .ok examples => .ok examples

/-- Lines 160-167: the summary. -/
def report (env : Env) (s : LoopState) : World :=
  let w := ttyEscape env "\x1b[2m" s.world
  let w := os.ErrWrite w (ErrEvent.Fprintln (separator env))
  let w := os.ErrWrite w (ErrEvent.Fprintf
    ("Processed " ++ toString s.processed ++ " examples, skipped " ++
      toString s.skipped ++ " examples in " ++ env.Elapsed ++ "\n"))
  ttyEscape env "\x1b[0m" w

/-- The method `func (cmd *SrcCommand) Execute() error`: the error returned, and the environment
the call leaves. -/
def SrcCommand.Execute (cmd : SrcCommand) (env : Env) (w : World) : Option String × World :=
  match cmd.prepare env w with
  | (some err, w) => (some err, w)
  | (none, w) =>
    match cmd.load env w with
    | .error err => (some err, w)
    | .ok examples =>
      match cmd.loop env examples { world := w, processed := 0, skipped := 0 } with
      | (some err, s) => (some err, s.world)
      | (none, s) => (none, report env s)

/-! ## Notions the statements and their proofs use -/

/-- A plain file name: not empty, not `.` or `..`, and without a slash. -/
def plainName (s : String) : Prop :=
  s.toList ≠ [] ∧ s.toList ≠ ['.'] ∧ s.toList ≠ ['.', '.'] ∧ '/' ∉ s.toList

instance (s : String) : Decidable (plainName s) := by
  unfold plainName
  infer_instance

/-- The write `ev` is one the statements of the source can make: a `fmt.Fprint` of an
escape code, made while `utils.IsTTY()` holds; the `fmt.Fprintln` of the separator line;
a `fmt.Fprintf`, an `io.Copy` or a `utils.PrintSourceWithErr`. -/
def sourceWrite (env : Env) (ev : ErrEvent) : Prop :=
  (env.IsTTY = true ∧
    (ev = ErrEvent.Fprint "\x1b[2m" ∨ ev = ErrEvent.Fprint "\x1b[0m")) ∨
  ev = ErrEvent.Fprintln (separator env) ∨
  (∃ s, ev = ErrEvent.Fprintf s) ∨
  (∃ b, ev = ErrEvent.Copy b) ∨
  (∃ b err, ev = ErrEvent.PrintSourceWithErr b err)

/-- Every entry of `l`, a piece of the log of standard error, is a `sourceWrite`. -/
def guarded (env : Env) (l : List ErrEvent) : Prop := ∀ ev ∈ l, sourceWrite env ev

/-- The environment `w1` arises from `w` by writes to standard error alone, and the
entries added to its log are `guarded`. -/
def World.onlyStderr (env : Env) (w w1 : World) : Prop :=
  w1.dirs = w.dirs ∧ w1.files = w.files ∧ w1.stdout = w.stdout ∧
  w1.stdoutOk = w.stdoutOk ∧ w1.stderrOk = w.stderrOk ∧ w1.rendered = w.rendered ∧
  ∃ l, w1.stderr = w.stderr ++ l ∧ guarded env l

/-- The lines before the preview: escape code, separator, escape code. -/
def previewHead (env : Env) (w : World) : World :=
  ttyEscape env "\x1b[0m" (os.ErrWrite (ttyEscape env "\x1b[2m" w)
    (ErrEvent.Fprintln (separator env)))

/-- The error of a copy of `d` to a stream that accepts writes iff `ok`. -/
def copyError (stream : String) (ok : Bool) (d : Bytes) : Option String :=
  if d = [] then none
  else if ok then none
  else some ("write /dev/" ++ stream ++ ": file already closed")

/-- The result of the debug preview, as a function of whether standard error accepts
writes. -/
def debugResult (env : Env) (cmd : SrcCommand) (out : Bytes) (ok : Bool) :
    Except String Bytes :=
  if cmd.DebugSource then
    if cmd.ColorizeSource then
      match (env.Chromatize out).2 with
      | .error err => .error ("error syntax highligting the output: " ++ err)
      | .ok src =>
        match copyError "stderr" ok src with
        | some err => .error ("error copying output: " ++ err)
        | none =>
          match copyError "stderr" ok (out.drop (env.Chromatize out).1) with
          | some err => .error ("error copying output: " ++ err)
          | none => .ok out
    else
      match copyError "stderr" ok out with
      | some err => .error ("error copying output: " ++ err)
      | none => .ok out
  else .ok out

/-- The bytes the normalization pass hands on: the rendered bytes, or the result of
`imports.Process` on them when `GofmtSource` is set. -/
def gofmtResult (env : Env) (cmd : SrcCommand) (e : Example) : Except String Bytes :=
  if cmd.GofmtSource then env.Process (env.Output e) else .ok (env.Output e)

/-- The final bytes of an example: what the normalization pass hands on. -/
def finalBytes (env : Env) (cmd : SrcCommand) (e : Example) : Bytes :=
  match gofmtResult env cmd e with
  | .ok b => b
  | .error _ => []

/-- The error `processExample` returns, as a function of the directories and of
whether the standard streams accept writes. -/
def exampleError (env : Env) (cmd : SrcCommand) (e : Example) (dirs : String → Bool)
    (errOk outOk : Bool) : Option String :=
  match gofmtResult env cmd e with
  | .error err => some err
  | .ok b =>
    match debugResult env cmd b errOk with
    | .error err => some err
    | .ok _ =>
      if cmd.Output = "-" then
        (copyError "stdout" outOk b).map (fun err => "error copying output: " ++ err)
      else
        (os.openError dirs (artefactPath env cmd e)).map
          (fun err => "error creating file: " ++ err)

/-- What one call of `processExample` does to the environment. -/
structure ProcessFacts (env : Env) (cmd : SrcCommand) (e : Example) (w : World)
    (r : Option String) (w1 : World) : Prop where
  result : r = exampleError env cmd e w.dirs w.stderrOk w.stdoutOk
  rendered : w1.rendered = w.rendered ++ [e]
  dirs : w1.dirs = w.dirs
  stdoutOk : w1.stdoutOk = w.stdoutOk
  stderrOk : w1.stderrOk = w.stderrOk
  stderr : ∃ l, w1.stderr = w.stderr ++ l ∧ guarded env l
  stdout : w1.stdout =
    if r = none ∧ cmd.Output = "-" then w.stdout ++ finalBytes env cmd e else w.stdout
  files : ∀ p, w1.files p =
    if r = none ∧ cmd.Output ≠ "-" ∧ p = artefactPath env cmd e then
      some (finalBytes env cmd e)
    else w.files p

/-- The error the loop returns, as a function of the directories and of whether the
standard streams accept writes. -/
def loopError (env : Env) (cmd : SrcCommand) (dirs : String → Bool) (errOk outOk : Bool) :
    List Example → Option String
  | [] => none
  | e :: es =>
    if eligible env e then
      match exampleError env cmd e dirs errOk outOk with
      | some err => some ("error processing example " ++ env.ID e ++ ": " ++ err)
      | none => loopError env cmd dirs errOk outOk es
    else loopError env cmd dirs errOk outOk es

/-- The last eligible example of the list whose artefact path is `p`. -/
def lastWritten (env : Env) (cmd : SrcCommand) : List Example → String → Option Example
  | [], _ => none
  | e :: es, p =>
    match lastWritten env cmd es p with
    | some e1 => some e1
    | none => if eligible env e ∧ artefactPath env cmd e = p then some e else none

/-- What a run of the loop does to the variables of `Execute`. -/
structure LoopFacts (env : Env) (cmd : SrcCommand) (xs : List Example) (s : LoopState)
    (r : Option String) (s1 : LoopState) : Prop where
  result : r = loopError env cmd s.world.dirs s.world.stderrOk s.world.stdoutOk xs
  dirs : s1.world.dirs = s.world.dirs
  stdoutOk : s1.world.stdoutOk = s.world.stdoutOk
  stderrOk : s1.world.stderrOk = s.world.stderrOk
  stderr : ∃ l, s1.world.stderr = s.world.stderr ++ l ∧ guarded env l
  keepFiles : cmd.Output = "-" → s1.world.files = s.world.files
  keepStdout : cmd.Output ≠ "-" → s1.world.stdout = s.world.stdout
  rendered : r = none → s1.world.rendered = s.world.rendered ++ xs.filter (eligible env)
  processed : r = none → s1.processed = s.processed + (xs.filter (eligible env)).length
  skipped : r = none →
    s1.skipped = s.skipped + (xs.filter (fun e => !eligible env e)).length
  stdout : r = none → cmd.Output = "-" → s1.world.stdout =
    s.world.stdout ++ ((xs.filter (eligible env)).map (finalBytes env cmd)).flatten
  files : r = none → cmd.Output ≠ "-" → ∀ p, s1.world.files p =
    match lastWritten env cmd xs p with
    | some e => some (finalBytes env cmd e)
    | none => s.world.files p

/-- What `prepare` does to the environment. -/
structure PrepareFacts (cmd : SrcCommand) (w : World) (r : Option String) (w1 : World) :
    Prop where
  files : w1.files = w.files
  stdout : w1.stdout = w.stdout
  stdoutOk : w1.stdoutOk = w.stdoutOk
  stderr : w1.stderr = w.stderr
  stderrOk : w1.stderrOk = w.stderrOk
  rendered : w1.rendered = w.rendered
  created : r = none → cmd.Output ≠ "-" → w1.dirs (filepath.Join [cmd.Output, "src"]) = true
  present : w.dirs (filepath.Join [cmd.Output, "src"]) = true → r = none ∧ w1 = w

/-! ## The renderer and the example model, from the specification -/

/-- The UTF-8 bytes of a string. -/
def utf8 (s : String) : Bytes := s.data.flatMap String.utf8EncodeChar

/-- Modelled from the spec: `Example.Enabled()`, declared in another file of the package:
it returns the explicit enable flag. -/
def Example.Enabled (e : Example) : Bool := e.EnabledFlag

/-- Modelled from the spec: `Example.Executable()`, declared in another file of the
package: true iff the tagged body is non-empty. -/
def Example.Executable (e : Example) : Bool := e.Body != ""

/-- Modelled from the spec: `Example.ID()`, declared in another file of the package: a
stable identifier combining a human-readable slug and the content digest. -/
def Example.ID (e : Example) : String := e.Slug ++ "_" ++ e.Digest

/-- Modelled from the spec: `SrcGenerator.Filename()`, declared in another file of the
package: derived deterministically from the identifier of the example. -/
def SrcGenerator.Filename (e : Example) : String := e.ID ++ "_test.go"

/-- Modelled from the spec: the start of `SrcGenerator.Output()`, with the text of the
committed artefacts: the provenance header, the package clause and the imports. -/
def SrcGenerator.header : String :=
  "// Licensed to Elasticsearch B.V under one or more agreements.\n" ++
  "// Elasticsearch B.V. licenses this file to you under the Apache 2.0 License.\n" ++
  "// See the LICENSE file in the project root for more information.\n" ++
  "//\n// Code generated, DO NOT EDIT\n\npackage elasticsearch_test\n\n" ++
  "import (\n\t\"fmt\"\n\t\"os\"\n\t\"testing\"\n\n" ++
  "\t\"github.com/elastic/go-elasticsearch/v8\"\n)\n\n" ++
  "var (\n\t_ = fmt.Printf\n\t_ = os.Stdout\n\t_ = elasticsearch.NewDefaultClient\n)\n\n"

/-- Modelled from the spec: the name of the test function of a rendered unit: it embeds
the identifier of the example, with the characters a Go identifier cannot hold
replaced, as in the committed artefacts. -/
def SrcGenerator.testName (e : Example) : String :=
  "Test_" ++ String.mk (e.ID.toList.map (fun c => if c.isAlphanum then c else '_'))

/-- Modelled from the spec: the scaffold after the tagged body, with the text of the
committed artefacts: error handling and release of the response. -/
def SrcGenerator.footer : String :=
  "\tif err != nil \x7b\n\t\tfmt.Println(\"Error getting the response:\", err)\n" ++
  "\t\tos.Exit(1)\n\t\x7d\n\tdefer res.Body.Close()\n\tfmt.Println(res)\n\x7d\n"

/-- Modelled from the spec: the comment of a rendered unit that quotes the example: its
location in the documentation and the lines of its console source between two rules, as
in the committed artefacts. -/
def SrcGenerator.comment (e : Example) : String :=
  "// <" ++ e.Location ++ ">\n//\n// " ++ String.mk (List.replicate 80 '-') ++ "\n" ++
  String.join (e.Source.map (fun line => "// " ++ line ++ "\n")) ++
  "// " ++ String.mk (List.replicate 80 '-') ++ "\n\n"

/-- Modelled from the spec: the test function of a rendered unit: named after the
example, it wraps the tagged body between the marker comments and ends in the
scaffold. -/
def SrcGenerator.function (e : Example) : Bytes :=
  utf8 ("func " ++ SrcGenerator.testName e ++ "(t *testing.T) \x7b\n" ++
    "\tes, _ := elasticsearch.NewDefaultClient()\n\n\t") ++
  utf8 "// " ++ utf8 ("tag:" ++ e.Digest ++ "[]") ++ utf8 "\n" ++
  utf8 e.Body ++
  utf8 "\n\t// " ++ utf8 ("end:" ++ e.Digest ++ "[]") ++ utf8 "\n" ++
  utf8 SrcGenerator.footer

/-- Modelled from the spec: `SrcGenerator.Output()`, declared in another file of the
package: a header comment, the import of the client, and a test function named after the
example that wraps the tagged body between the marker comments `tag:<digest>[]` and
`end:<digest>[]`. The text of the scaffold, and the comment that quotes the example, are
those of the committed artefacts under `.doc/examples/src`. -/
def SrcGenerator.Output (e : Example) : Bytes :=
  utf8 SrcGenerator.header ++ utf8 (SrcGenerator.comment e) ++ SrcGenerator.function e

/-! ## A concrete environment -/

/-- The enabled example, with the body `X` and the digest `abc`. -/
def exampleA : Example :=
  { Slug := "docs-get", Digest := "abc", EnabledFlag := true, Body := "X" }

/-- The disabled example. -/
def exampleB : Example :=
  { Slug := "docs-put", Digest := "def", EnabledFlag := false, Body := "Y" }

/-- An enabled example whose rendered text the normalization pass rejects. -/
def exampleBad : Example :=
  { Slug := "docs-bad", Digest := "bad", EnabledFlag := true, Body := "\x00" }

/-- An enabled example whose digest holds the bytes of an escape code. -/
def exampleEsc : Example :=
  { Slug := "docs-esc", Digest := "\x1b[0m", EnabledFlag := true, Body := "X" }

/-- An environment over the renderer of the specification: the normalization pass
rejects a NUL byte and otherwise appends a newline, the highlighter reads its whole
input, and the decoder knows four documents. -/
def specEnv (tty : Bool) (width : Nat) : Env where
  Enabled := Example.Enabled
  Executable := Example.Executable
  ID := Example.ID
  Filename := SrcGenerator.Filename
  Output := SrcGenerator.Output
  IsTTY := tty
  TerminalWidth := width
  Chromatize := fun b => (b.length, .ok (utf8 "\x1b[38;5;197m" ++ b))
  Process := fun b =>
    if b.contains 0 then .error "example_test.go:33:1: illegal character NUL"
    else .ok (b ++ [10])
  Decode := fun b =>
    if b = [1] then .ok [exampleA, exampleB]
    else if b = [2] then .ok [exampleA, exampleBad, exampleA]
    else if b = [3] then .ok []
    else if b = [5] then .ok [exampleEsc]
    else .error "invalid character"
  Quote := fun s => "\"" ++ s ++ "\""
  Elapsed := "0s"

/-- An environment with the input documents and nothing else. -/
def world0 : World where
  dirs := fun _ => false
  files := fun p =>
    if p = "one.json" then some [1]
    else if p = "two.json" then some [2]
    else if p = "none.json" then some [3]
    else if p = "broken.json" then some [4]
    else if p = "esc.json" then some [5]
    else none
  stdout := []
  stdoutOk := true
  stderr := []
  stderrOk := true
  rendered := []

/-- An environment with the input documents, the output directory, and artefacts of an
earlier run at the paths of the first and of the rejected example. -/
def worldOld : World where
  dirs := fun p => p = "out" || p = "out/src"
  files := fun p =>
    if p = "one.json" then some [1]
    else if p = "two.json" then some [2]
    else if p = "out/src/docs-get_abc_test.go" then some [7, 7]
    else if p = "out/src/docs-bad_bad_test.go" then some [8, 8, 8]
    else none
  stdout := []
  stdoutOk := true
  stderr := []
  stderrOk := true
  rendered := []

/-- The example the committed artefact `docs-get_138ccd89f72aa7502dd9578403dcc589_test.go`
was generated from: its slug, its digest, the body between its markers, and the location
and console source its comment quotes. -/
def docsGetExample : Example :=
  { Slug := "docs-get", Digest := "138ccd89f72aa7502dd9578403dcc589", EnabledFlag := true,
    Body := "\tres, err := es.Get(\n\t\t\"twitter\",\n\t\t\"0\",\n" ++
      "\t\tes.Get.WithSource(\"false\"),\n\t\tes.Get.WithPretty(),\n\t)",
    Location := "https://github.com/elastic/elasticsearch/blob/master/docs/reference/" ++
      "docs/get.asciidoc#L53",
    Source := ["GET twitter/_doc/0?_source=false"] }

/-- Lines 1 to 22 of the committed artefact
`.doc/examples/src/docs-get_138ccd89f72aa7502dd9578403dcc589_test.go`: the header, the
package clause and the imports. -/
def docsGetHead : String :=
  "// Licensed to Elasticsearch B.V under one or more agreement" ++
  "s.\n" ++
  "// Elasticsearch B.V. licenses this file to you under the Ap" ++
  "ache 2.0 License.\n" ++
  "// See the LICENSE file in the project root for more informa" ++
  "tion.\n" ++
  "//\n" ++
  "// Code generated, DO NOT EDIT\n" ++
  "\n" ++
  "package elasticsearch_test\n" ++
  "\n" ++
  "import (\n" ++
  "\t\"fmt\"\n" ++
  "\t\"os\"\n" ++
  "\t\"testing\"\n" ++
  "\n" ++
  "\t\"github.com/elastic/go-elasticsearch/v8\"\n" ++
  ")\n" ++
  "\n" ++
  "var (\n" ++
  "\t_ = fmt.Printf\n" ++
  "\t_ = os.Stdout\n" ++
  "\t_ = elasticsearch.NewDefaultClient\n" ++
  ")\n" ++
  "\n"

/-- Lines 23 to 28 of the committed artefact: the comment that quotes the example. -/
def docsGetComment : String :=
  "// <https://github.com/elastic/elasticsearch/blob/master/doc" ++
  "s/reference/docs/get.asciidoc#L53>\n" ++
  "//\n" ++
  "// ---------------------------------------------------------" ++
  "-----------------------\n" ++
  "// GET twitter/_doc/0?_source=false\n" ++
  "// ---------------------------------------------------------" ++
  "-----------------------\n" ++
  "\n"

/-- Lines 29 to 46 of the committed artefact: the test function. -/
def docsGetFunction : String :=
  "func Test_docs_get_138ccd89f72aa7502dd9578403dcc589(t *testi" ++
  "ng.T) \x7b\n" ++
  "\tes, _ := elasticsearch.NewDefaultClient()\n" ++
  "\n" ++
  "\t// tag:138ccd89f72aa7502dd9578403dcc589[]\n" ++
  "\tres, err := es.Get(\n" ++
  "\t\t\"twitter\",\n" ++
  "\t\t\"0\",\n" ++
  "\t\tes.Get.WithSource(\"false\"),\n" ++
  "\t\tes.Get.WithPretty(),\n" ++
  "\t)\n" ++
  "\t// end:138ccd89f72aa7502dd9578403dcc589[]\n" ++
  "\tif err != nil \x7b\n" ++
  "\t\tfmt.Println(\"Error getting the response:\", err)\n" ++
  "\t\tos.Exit(1)\n" ++
  "\t\x7d\n" ++
  "\tdefer res.Body.Close()\n" ++
  "\tfmt.Println(res)\n" ++
  "\x7d\n"

/-- The committed artefact
`.doc/examples/src/docs-get_138ccd89f72aa7502dd9578403dcc589_test.go`, whole. -/
def docsGetArtefact : String := docsGetHead ++ docsGetComment ++ docsGetFunction

/-- An enabled example whose body is not in the format of `gofmt`. -/
def exampleTerse : Example :=
  { Slug := "docs-info", Digest := "c0ffee", EnabledFlag := true,
    Body := "res,err:=es.Info()", Location := "https://example.org/info.asciidoc#L1",
    Source := ["GET /"] }

/-- The example `exampleTerse` with its body as `gofmt` writes it inside a function: the
statement indented by a tab, with blanks around `:=` and after the comma. -/
def exampleFormatted : Example :=
  { exampleTerse with Body := "\tres, err := es.Info()" }

/-- The environment `specEnv` with a normalization pass that does to the rendered unit
of `exampleTerse` what `imports.Process` does: it reformats the one line that is not in
the format of `gofmt`, the body; any other text it takes to be formatted already. -/
def envGofmt : Env :=
  { specEnv false 3 with
    Process := fun b =>
      if b = SrcGenerator.Output exampleTerse then .ok (SrcGenerator.Output exampleFormatted)
      else .ok b }

/-- Whether the bytes `needle` occur in `hay` as one piece. -/
def occursIn (needle : Bytes) : Bytes → Bool
  | [] => needle.isEmpty
  | h :: t => needle.isPrefixOf (h :: t) || occursIn needle t

/-! ## Concrete commands -/

/-- Files under `out`, no preview, no normalization, on the two-example document. -/
def cmdFile : SrcCommand :=
  { Input := "one.json", Output := "out", DebugSource := false, ColorizeSource := false,
    GofmtSource := false }

/-- Standard output, with the highlighted preview and normalization. -/
def cmdStdout : SrcCommand :=
  { Input := "one.json", Output := "-", DebugSource := true, ColorizeSource := true,
    GofmtSource := true }

/-- Standard output, with the plain preview and normalization. -/
def cmdPreview : SrcCommand :=
  { Input := "one.json", Output := "-", DebugSource := true, ColorizeSource := false,
    GofmtSource := true }

/-- Files under `out` with the flags at their defaults (`debug` off, `color` and `gofmt`
on, lines 39 to 41). -/
def cmdDefault : SrcCommand :=
  { Input := "one.json", Output := "out", DebugSource := false, ColorizeSource := true,
    GofmtSource := true }

/-- Files under `out` with normalization, on the document whose second example is
rejected by the normalization pass. -/
def cmdAbort : SrcCommand :=
  { Input := "two.json", Output := "out", DebugSource := false, ColorizeSource := false,
    GofmtSource := true }

/-- Standard output on the document without examples. -/
def cmdEmpty : SrcCommand :=
  { Input := "none.json", Output := "-", DebugSource := false, ColorizeSource := false,
    GofmtSource := false }

/-- Standard output on the document of the example with an escape code for a digest. -/
def cmdEsc : SrcCommand :=
  { Input := "esc.json", Output := "-", DebugSource := false, ColorizeSource := false,
    GofmtSource := false }

/-- Files under `out` on a document that does not decode. -/
def cmdBroken : SrcCommand :=
  { Input := "broken.json", Output := "out", DebugSource := false, ColorizeSource := false,
    GofmtSource := true }

/-- Files under `out`, with the plain preview and without normalization. -/
def cmdDebugFile : SrcCommand :=
  { Input := "one.json", Output := "out", DebugSource := true, ColorizeSource := false,
    GofmtSource := false }

/-- Files under `out`, with the highlighted preview and without normalization. -/
def cmdColorFile : SrcCommand :=
  { Input := "one.json", Output := "out", DebugSource := true, ColorizeSource := true,
    GofmtSource := false }

/-- The environment `worldOld` with a diagnostic stream that accepts no write. -/
def worldMute : World := { worldOld with stderrOk := false }

/-- The environment `specEnv` with a highlighter that fails. -/
def envNoLexer : Env :=
  { specEnv false 3 with Chromatize := fun b => (b.length, .error "no lexer for go") }

/-- The input document is itself the artefact path of its first example. -/
def cmdClobber : SrcCommand :=
  { Input := "out/src/docs-get_abc_test.go", Output := "out", DebugSource := false,
    ColorizeSource := false, GofmtSource := false }

/-- An environment in which the input document lies in the output directory, under the
name the first example is written to. -/
def worldClobber : World where
  dirs := fun p => p = "out" || p = "out/src"
  files := fun p => if p = "out/src/docs-get_abc_test.go" then some [1] else none
  stdout := []
  stdoutOk := true
  stderr := []
  stderrOk := true
  rendered := []

/-! # Theorems -/

/-! ## Writes that reach standard error only -/

theorem guarded_nil (env : Env) : guarded env [] := by
  intro ev hs
  simp at hs

theorem guarded_append {env : Env} {l1 l2 : List ErrEvent} (h1 : guarded env l1)
    (h2 : guarded env l2) : guarded env (l1 ++ l2) := by
  intro ev hs
  rcases List.mem_append.mp hs with h | h
  · exact h1 ev h
  · exact h2 ev h

theorem guarded_Fprint {env : Env} {l : List ErrEvent} (h : guarded env l) (s : String)
    (hs : ErrEvent.Fprint s ∈ l) :
    env.IsTTY = true ∧ (s = "\x1b[2m" ∨ s = "\x1b[0m") := by
  rcases h _ hs with ⟨ht, h1 | h1⟩ | h1 | ⟨t, h1⟩ | ⟨b, h1⟩ | ⟨b, err, h1⟩
  · exact ⟨ht, Or.inl (ErrEvent.Fprint.inj h1)⟩
  · exact ⟨ht, Or.inr (ErrEvent.Fprint.inj h1)⟩
  · cases h1
  · cases h1
  · cases h1
  · cases h1

theorem guarded_Fprintln {env : Env} {l : List ErrEvent} (h : guarded env l) (s : String)
    (hs : ErrEvent.Fprintln s ∈ l) : s = separator env := by
  rcases h _ hs with ⟨_, h1 | h1⟩ | h1 | ⟨t, h1⟩ | ⟨b, h1⟩ | ⟨b, err, h1⟩
  · cases h1
  · cases h1
  · exact ErrEvent.Fprintln.inj h1
  · cases h1
  · cases h1
  · cases h1

theorem onlyStderr_refl (env : Env) (w : World) : w.onlyStderr env w :=
  ⟨rfl, rfl, rfl, rfl, rfl, rfl, [], by simp, guarded_nil env⟩

theorem onlyStderr_trans {env : Env} {a b c : World} (h1 : a.onlyStderr env b)
    (h2 : b.onlyStderr env c) : a.onlyStderr env c := by
  obtain ⟨h11, h12, h13, h14, h15, h16, l1, h17, g1⟩ := h1
  obtain ⟨h21, h22, h23, h24, h25, h26, l2, h27, g2⟩ := h2
  refine ⟨h21.trans h11, h22.trans h12, h23.trans h13, h24.trans h14, h25.trans h15,
    h26.trans h16, l1 ++ l2, ?_, guarded_append g1 g2⟩
  rw [h27, h17, List.append_assoc]

theorem ErrWrite_onlyStderr (env : Env) (w : World) (ev : ErrEvent)
    (hev : sourceWrite env ev) : w.onlyStderr env (os.ErrWrite w ev) := by
  unfold os.ErrWrite
  split
  · refine ⟨rfl, rfl, rfl, rfl, rfl, rfl, [ev], rfl, ?_⟩
    intro ev2 hs
    rw [List.mem_singleton.mp hs]
    exact hev
  · exact onlyStderr_refl env w

theorem ttyEscape_dim (env : Env) (w : World) :
    w.onlyStderr env (ttyEscape env "\x1b[2m" w) := by
  unfold ttyEscape
  split
  · rename_i h
    exact ErrWrite_onlyStderr env w _ (Or.inl ⟨h, Or.inl rfl⟩)
  · exact onlyStderr_refl env w

theorem ttyEscape_reset (env : Env) (w : World) :
    w.onlyStderr env (ttyEscape env "\x1b[0m" w) := by
  unfold ttyEscape
  split
  · rename_i h
    exact ErrWrite_onlyStderr env w _ (Or.inl ⟨h, Or.inr rfl⟩)
  · exact onlyStderr_refl env w

theorem Fprintln_onlyStderr (env : Env) (w : World) :
    w.onlyStderr env (os.ErrWrite w (ErrEvent.Fprintln (separator env))) :=
  ErrWrite_onlyStderr env w _ (Or.inr (Or.inl rfl))

theorem Fprintf_onlyStderr (env : Env) (w : World) (s : String) :
    w.onlyStderr env (os.ErrWrite w (ErrEvent.Fprintf s)) :=
  ErrWrite_onlyStderr env w _ (Or.inr (Or.inr (Or.inl ⟨s, rfl⟩)))

theorem CopyStderr_onlyStderr (env : Env) (w : World) (d : Bytes) :
    w.onlyStderr env (os.CopyStderr w d).2 := by
  unfold os.CopyStderr
  split_ifs
  · exact onlyStderr_refl env w
  · refine ⟨rfl, rfl, rfl, rfl, rfl, rfl, [ErrEvent.Copy d], rfl, ?_⟩
    intro ev hs
    rw [List.mem_singleton.mp hs]
    exact Or.inr (Or.inr (Or.inr (Or.inl ⟨d, rfl⟩)))
  · exact onlyStderr_refl env w

theorem gofmtStage_onlyStderr (env : Env) (cmd : SrcCommand) (out : Bytes) (w : World) :
    w.onlyStderr env (gofmtStage env cmd out w).2 := by
  unfold gofmtStage
  dsimp only
  repeat' split
  all_goals first
    | exact onlyStderr_refl env w
    | exact ErrWrite_onlyStderr env w _ (Or.inr (Or.inr (Or.inr (Or.inr ⟨_, _, rfl⟩))))

/-- The normalization pass hands on the rendered bytes, or what `imports.Process` made
of them. -/
theorem gofmtStage_ok (env : Env) (cmd : SrcCommand) (out b : Bytes) (w : World)
    (h : (gofmtStage env cmd out w).1 = .ok b) :
    if cmd.GofmtSource then env.Process out = .ok b else b = out := by
  unfold gofmtStage at h
  dsimp only at h
  by_cases hg : cmd.GofmtSource = true
  · simp only [hg, if_true] at h ⊢
    cases hp : env.Process out with
    | error err => simp only [hp] at h; split at h <;> cases h
    | ok bout => simp only [hp] at h; cases h; rfl
  · rw [if_neg hg] at h ⊢
    simp at h
    exact h.symm

theorem previewHead_onlyStderr (env : Env) (w : World) :
    w.onlyStderr env (previewHead env w) :=
  onlyStderr_trans (onlyStderr_trans (ttyEscape_dim env w) (Fprintln_onlyStderr env _))
    (ttyEscape_reset env _)

theorem debugStage_onlyStderr (env : Env) (cmd : SrcCommand) (out : Bytes) (w : World) :
    w.onlyStderr env (debugStage env cmd out w).2 := by
  have h3 := previewHead_onlyStderr env w
  unfold previewHead at h3
  unfold debugStage
  dsimp only
  by_cases hd : cmd.DebugSource = true
  · simp only [hd, if_true]
    by_cases hc : cmd.ColorizeSource = true
    · simp only [hc, if_true]
      cases hch : (env.Chromatize out).2 with
      | error err => exact h3
      | ok src =>
        dsimp only
        have h4 := CopyStderr_onlyStderr env (previewHead env w) src
        unfold previewHead at h4
        rcases hc1 : os.CopyStderr (ttyEscape env "\x1b[0m" (os.ErrWrite
          (ttyEscape env "\x1b[2m" w) (ErrEvent.Fprintln (separator env)))) src
          with ⟨_ | err, w4⟩
        · rw [hc1] at h4
          dsimp only at h4 ⊢
          have h5 := CopyStderr_onlyStderr env w4 (List.drop (env.Chromatize out).1 out)
          rcases hc2 : os.CopyStderr w4 (List.drop (env.Chromatize out).1 out)
            with ⟨_ | err, w5⟩
          · rw [hc2] at h5
            exact onlyStderr_trans h3 (onlyStderr_trans h4 (onlyStderr_trans h5
              (Fprintf_onlyStderr env _ _)))
          · rw [hc2] at h5
            exact onlyStderr_trans h3 (onlyStderr_trans h4 h5)
        · rw [hc1] at h4
          exact onlyStderr_trans h3 h4
    · rw [if_neg hc]
      have h4 := CopyStderr_onlyStderr env (previewHead env w) out
      unfold previewHead at h4
      rcases hc1 : os.CopyStderr (ttyEscape env "\x1b[0m" (os.ErrWrite
          (ttyEscape env "\x1b[2m" w) (ErrEvent.Fprintln (separator env)))) out
          with ⟨_ | err, w4⟩
      · rw [hc1] at h4
        exact onlyStderr_trans h3 (onlyStderr_trans h4 (Fprintf_onlyStderr env _ _))
      · rw [hc1] at h4
        exact onlyStderr_trans h3 h4
  · rw [if_neg hd]
    exact onlyStderr_refl env w

/-- The preview hands on exactly the bytes it was given: what `tee` copied to `buf`
while `utils.Chromatize` read, followed by what it copied while the rest was read. -/
theorem debugStage_ok (env : Env) (cmd : SrcCommand) (out b : Bytes) (w : World)
    (h : (debugStage env cmd out w).1 = .ok b) : b = out := by
  unfold debugStage at h
  dsimp only at h
  by_cases hd : cmd.DebugSource = true
  · simp only [hd, if_true] at h
    by_cases hc : cmd.ColorizeSource = true
    · simp only [hc, if_true] at h
      generalize (env.Chromatize out).2 = r at h
      cases r with
      | error err => cases h
      | ok src =>
        dsimp only at h
        split at h
        · cases h
        · split at h
          · cases h
          · simp only [Except.ok.injEq] at h
            rw [← h]
            exact List.take_append_drop _ _
    · rw [if_neg hc] at h
      split at h
      · cases h
      · simp at h
        exact h.symm
  · rw [if_neg hd] at h
    simp at h
    exact h.symm

/-! ## What decides whether a stage fails -/

theorem CopyStderr_fst (w : World) (d : Bytes) :
    (os.CopyStderr w d).1 = copyError "stderr" w.stderrOk d := by
  unfold os.CopyStderr copyError
  split_ifs <;> rfl

theorem CopyStdout_fst (w : World) (d : Bytes) :
    (os.CopyStdout w d).1 = copyError "stdout" w.stdoutOk d := by
  unfold os.CopyStdout copyError
  split_ifs <;> rfl

theorem previewHead_stderrOk (env : Env) (w : World) :
    (previewHead env w).stderrOk = w.stderrOk :=
  (previewHead_onlyStderr env w).2.2.2.2.1

theorem debugStage_fst (env : Env) (cmd : SrcCommand) (out : Bytes) (w : World) :
    (debugStage env cmd out w).1 = debugResult env cmd out w.stderrOk := by
  have hk := previewHead_stderrOk env w
  unfold previewHead at hk
  unfold debugStage debugResult
  dsimp only
  by_cases hd : cmd.DebugSource = true
  · rw [if_pos hd, if_pos hd]
    by_cases hc : cmd.ColorizeSource = true
    · rw [if_pos hc, if_pos hc]
      cases (env.Chromatize out).2 with
      | error err => rfl
      | ok src =>
        dsimp only
        have h1 := CopyStderr_fst (previewHead env w) src
        have h4 := CopyStderr_onlyStderr env (previewHead env w) src
        unfold previewHead at h1 h4
        rw [hk] at h1
        rcases hc1 : os.CopyStderr (ttyEscape env "\x1b[0m" (os.ErrWrite
          (ttyEscape env "\x1b[2m" w) (ErrEvent.Fprintln (separator env)))) src
          with ⟨_ | err, w4⟩
        · rw [hc1] at h1 h4
          dsimp only at h1 h4 ⊢
          rw [← h1]
          dsimp only
          have h2 := CopyStderr_fst w4 (List.drop (env.Chromatize out).1 out)
          rw [h4.2.2.2.2.1, hk] at h2
          rcases hc2 : os.CopyStderr w4 (List.drop (env.Chromatize out).1 out)
            with ⟨_ | err, w5⟩
          · rw [hc2] at h2
            dsimp only at h2 ⊢
            rw [← h2, List.take_append_drop]
          · rw [hc2] at h2
            dsimp only at h2 ⊢
            rw [← h2]
        · rw [hc1] at h1
          dsimp only at h1 ⊢
          rw [← h1]
    · rw [if_neg hc, if_neg hc]
      have h1 := CopyStderr_fst (previewHead env w) out
      unfold previewHead at h1
      rw [hk] at h1
      rcases hc1 : os.CopyStderr (ttyEscape env "\x1b[0m" (os.ErrWrite
          (ttyEscape env "\x1b[2m" w) (ErrEvent.Fprintln (separator env)))) out
          with ⟨_ | err, w4⟩
      · rw [hc1] at h1
        dsimp only at h1 ⊢
        rw [← h1]
      · rw [hc1] at h1
        dsimp only at h1 ⊢
        rw [← h1]
  · rw [if_neg hd, if_neg hd]

theorem gofmtStage_fst (env : Env) (cmd : SrcCommand) (e : Example) (w : World) :
    (gofmtStage env cmd (env.Output e) w).1 = gofmtResult env cmd e := by
  unfold gofmtStage gofmtResult
  dsimp only
  by_cases hg : cmd.GofmtSource = true
  · rw [if_pos hg, if_pos hg]
    cases env.Process (env.Output e) with
    | error err => dsimp only; split <;> rfl
    | ok b => rfl
  · rw [if_neg hg, if_neg hg]

/-! ## The write stage -/

theorem writeStage_stdout (cmd : SrcCommand) (fName : String) (out : Bytes) (w : World)
    (hs : cmd.Output = "-") :
    (writeStage cmd fName out w).1 = (copyError "stdout" w.stdoutOk out).map
        (fun err => "error copying output: " ++ err) ∧
      (writeStage cmd fName out w).2.dirs = w.dirs ∧
      (writeStage cmd fName out w).2.files = w.files ∧
      (writeStage cmd fName out w).2.stdoutOk = w.stdoutOk ∧
      (writeStage cmd fName out w).2.stderrOk = w.stderrOk ∧
      (writeStage cmd fName out w).2.stderr = w.stderr ∧
      (writeStage cmd fName out w).2.rendered = w.rendered ∧
      (writeStage cmd fName out w).2.stdout =
        if (writeStage cmd fName out w).1 = none then w.stdout ++ out else w.stdout := by
  unfold writeStage os.CopyStdout copyError
  rw [if_pos hs]
  by_cases h1 : out = []
  · simp [h1]
  · by_cases h2 : w.stdoutOk = true
    · simp [h1, h2]
    · simp [h1, h2]

theorem writeStage_file (cmd : SrcCommand) (fName : String) (out : Bytes) (w : World)
    (hs : cmd.Output ≠ "-") :
    (writeStage cmd fName out w).1 =
        (os.openError w.dirs fName).map (fun err => "error creating file: " ++ err) ∧
      (writeStage cmd fName out w).2.dirs = w.dirs ∧
      (writeStage cmd fName out w).2.stdout = w.stdout ∧
      (writeStage cmd fName out w).2.stdoutOk = w.stdoutOk ∧
      (writeStage cmd fName out w).2.stderrOk = w.stderrOk ∧
      (writeStage cmd fName out w).2.stderr = w.stderr ∧
      (writeStage cmd fName out w).2.rendered = w.rendered ∧
      ∀ p, (writeStage cmd fName out w).2.files p =
        if (writeStage cmd fName out w).1 = none ∧ p = fName then some out
        else w.files p := by
  unfold writeStage os.OpenFile os.WriteFile os.Close
  rw [if_neg hs]
  cases h1 : os.openError w.dirs fName with
  | some err => simp
  | none =>
    simp
    intro p
    split <;> rfl

/-! ## One example -/

theorem processExample_facts (env : Env) (cmd : SrcCommand) (e : Example) (w : World) :
    ProcessFacts env cmd e w (cmd.processExample env e w).1 (cmd.processExample env e w).2 := by
  unfold SrcCommand.processExample
  dsimp only
  generalize hw1 : ({ w with rendered := w.rendered ++ [e] } : World) = w1
  have e1 : w1.rendered = w.rendered ++ [e] := by rw [← hw1]
  have e2 : w1.dirs = w.dirs := by rw [← hw1]
  have e3 : w1.files = w.files := by rw [← hw1]
  have e4 : w1.stdout = w.stdout := by rw [← hw1]
  have e5 : w1.stdoutOk = w.stdoutOk := by rw [← hw1]
  have e6 : w1.stderrOk = w.stderrOk := by rw [← hw1]
  have e7 : w1.stderr = w.stderr := by rw [← hw1]
  have hg1 := gofmtStage_fst env cmd e w1
  obtain ⟨g1, g2, g3, g4, g5, g6, lg, g7, g8⟩ := gofmtStage_onlyStderr env cmd (env.Output e) w1
  rcases hgs : gofmtStage env cmd (env.Output e) w1 with ⟨r1, w2⟩
  rw [hgs] at hg1 g1 g2 g3 g4 g5 g6 g7
  dsimp only at hg1 g1 g2 g3 g4 g5 g6 g7
  cases r1 with
  | error err =>
    dsimp only
    refine ⟨?_, by rw [g6, e1], by rw [g1, e2], by rw [g4, e5], by rw [g5, e6],
      ⟨lg, by rw [g7, e7], g8⟩, ?_, ?_⟩
    · unfold exampleError
      rw [← hg1]
    · rw [if_neg (by simp), g3, e4]
    · intro p
      rw [if_neg (by simp), g2, e3]
  | ok b =>
    dsimp only
    have hfb : finalBytes env cmd e = b := by
      unfold finalBytes
      rw [← hg1]
    have hd1 := debugStage_fst env cmd b w2
    have hd3 := debugStage_ok env cmd b
    obtain ⟨d1, d2, d3, d4, d5, d6, ld, d7, d8⟩ := debugStage_onlyStderr env cmd b w2
    rcases hds : debugStage env cmd b w2 with ⟨r2, w3⟩
    rw [hds] at hd1 d1 d2 d3 d4 d5 d6 d7
    dsimp only at hd1 d1 d2 d3 d4 d5 d6 d7
    cases r2 with
    | error err =>
      dsimp only
      refine ⟨?_, by rw [d6, g6, e1], by rw [d1, g1, e2], by rw [d4, g4, e5],
        by rw [d5, g5, e6], ⟨lg ++ ld, by rw [d7, g7, e7, List.append_assoc],
          guarded_append g8 d8⟩, ?_, ?_⟩
      · unfold exampleError
        rw [← hg1]
        dsimp only
        rw [← e6, ← g5, ← hd1]
      · rw [if_neg (by simp), d3, g3, e4]
      · intro p
        rw [if_neg (by simp), d2, g2, e3]
    | ok b2 =>
      dsimp only
      have hb2 : b2 = b := hd3 b2 w2 (by rw [hds])
      subst hb2
      have hres : exampleError env cmd e w.dirs w.stderrOk w.stdoutOk =
          if cmd.Output = "-" then
            (copyError "stdout" w.stdoutOk b2).map (fun err => "error copying output: " ++ err)
          else
            (os.openError w.dirs (artefactPath env cmd e)).map
              (fun err => "error creating file: " ++ err) := by
        unfold exampleError
        rw [← hg1]
        dsimp only
        rw [← e6, ← g5, ← hd1]
      by_cases hs : cmd.Output = "-"
      · obtain ⟨s1, s2, s3, s4, s5, s6, s7, s8⟩ :=
          writeStage_stdout cmd (artefactPath env cmd e) b2 w3 hs
        refine ⟨?_, by rw [s7, d6, g6, e1], by rw [s2, d1, g1, e2], by rw [s4, d4, g4, e5],
          by rw [s5, d5, g5, e6], ⟨lg ++ ld, by rw [s6, d7, g7, e7, List.append_assoc],
            guarded_append g8 d8⟩, ?_, ?_⟩
        · rw [hres, if_pos hs, s1, d4, g4, e5]
        · rw [s8, hfb, d3, g3, e4]
          simp [hs]
        · intro p
          rw [if_neg (by simp [hs]), s3, d2, g2, e3]
      · obtain ⟨s1, s2, s3, s4, s5, s6, s7, s8⟩ :=
          writeStage_file cmd (artefactPath env cmd e) b2 w3 hs
        refine ⟨?_, by rw [s7, d6, g6, e1], by rw [s2, d1, g1, e2], by rw [s4, d4, g4, e5],
          by rw [s5, d5, g5, e6], ⟨lg ++ ld, by rw [s6, d7, g7, e7, List.append_assoc],
            guarded_append g8 d8⟩, ?_, ?_⟩
        · rw [hres, if_neg hs, s1, d1, g1, e2]
        · rw [if_neg (by simp [hs]), s3, d3, g3, e4]
        · intro p
          rw [s8 p, hfb, d2, g2, e3]
          simp [hs]

/-! ## The loop -/

theorem announce_onlyStderr (env : Env) (e : Example) (w : World) :
    w.onlyStderr env (announce env e w) :=
  onlyStderr_trans (onlyStderr_trans (onlyStderr_trans (ttyEscape_dim env w)
    (Fprintln_onlyStderr env _)) (Fprintf_onlyStderr env _ _)) (ttyEscape_reset env _)

theorem report_onlyStderr (env : Env) (s : LoopState) :
    s.world.onlyStderr env (report env s) :=
  onlyStderr_trans (onlyStderr_trans (onlyStderr_trans (ttyEscape_dim env s.world)
    (Fprintln_onlyStderr env _)) (Fprintf_onlyStderr env _ _)) (ttyEscape_reset env _)

theorem loop_nil (cmd : SrcCommand) (env : Env) (s : LoopState) :
    cmd.loop env [] s = (none, s) := rfl

theorem loop_skip (cmd : SrcCommand) (env : Env) (e : Example) (es : List Example)
    (s : LoopState) (he : eligible env e = false) :
    cmd.loop env (e :: es) s = cmd.loop env es { s with skipped := s.skipped + 1 } := by
  rw [SrcCommand.loop]
  simp [he]

theorem loop_fail (cmd : SrcCommand) (env : Env) (e : Example) (es : List Example)
    (s : LoopState) (he : eligible env e = true) (err : String)
    (h : (cmd.processExample env e (announce env e s.world)).1 = some err) :
    cmd.loop env (e :: es) s =
      (some ("error processing example " ++ env.ID e ++ ": " ++ err),
        { s with world := (cmd.processExample env e (announce env e s.world)).2 }) := by
  rw [SrcCommand.loop]
  rcases hp : cmd.processExample env e (announce env e s.world) with ⟨r, w⟩
  rw [hp] at h
  dsimp only at h
  subst h
  simp [he]

theorem loop_step (cmd : SrcCommand) (env : Env) (e : Example) (es : List Example)
    (s : LoopState) (he : eligible env e = true)
    (h : (cmd.processExample env e (announce env e s.world)).1 = none) :
    cmd.loop env (e :: es) s =
      cmd.loop env es
        ⟨(cmd.processExample env e (announce env e s.world)).2, s.processed + 1,
          s.skipped⟩ := by
  rw [SrcCommand.loop]
  rcases hp : cmd.processExample env e (announce env e s.world) with ⟨r, w⟩
  rw [hp] at h
  dsimp only at h
  subst h
  simp [he]

theorem loop_facts (env : Env) (cmd : SrcCommand) (xs : List Example) :
    ∀ s, LoopFacts env cmd xs s (cmd.loop env xs s).1 (cmd.loop env xs s).2 := by
  induction xs with
  | nil =>
    intro s
    rw [loop_nil]
    exact ⟨rfl, rfl, rfl, rfl, ⟨[], by simp, guarded_nil env⟩, fun _ => rfl, fun _ => rfl,
      by simp, by simp, by simp, by simp, by simp [lastWritten]⟩
  | cons e es ih =>
    intro s
    by_cases he : eligible env e = true
    · obtain ⟨a1, a2, a3, a4, a5, a6, la, a7, a8⟩ := announce_onlyStderr env e s.world
      have pf := processExample_facts env cmd e (announce env e s.world)
      have pres := pf.result
      rw [a1, a4, a5] at pres
      cases hr : (cmd.processExample env e (announce env e s.world)).1 with
      | some err =>
        rw [loop_fail cmd env e es s he err hr]
        obtain ⟨lp, p1, p2⟩ := pf.stderr
        refine ⟨?_, by simp [pf.dirs, a1], by simp [pf.stdoutOk, a4],
          by simp [pf.stderrOk, a5],
          ⟨la ++ lp, by simp [p1, a7], guarded_append a8 p2⟩, ?_, ?_,
          by simp, by simp, by simp, by simp, by simp⟩
        · rw [hr] at pres
          simp [loopError, he, ← pres]
        · intro hs
          funext p
          simp [pf.files p, hr, a2]
        · intro hs
          simp [pf.stdout, hr, a3]
      | none =>
        rw [loop_step cmd env e es s he hr]
        have ih1 := ih
          ⟨(cmd.processExample env e (announce env e s.world)).2, s.processed + 1, s.skipped⟩
        generalize cmd.loop env es
          ⟨(cmd.processExample env e (announce env e s.world)).2, s.processed + 1,
            s.skipped⟩ = out at ih1 ⊢
        obtain ⟨i1, i2, i3, i4, ⟨li, i5, i6⟩, i7, i8, i9, i10, i11, i12, i13⟩ := ih1
        dsimp only at i1 i2 i3 i4 i5 i7 i8 i9 i10 i11 i12 i13
        obtain ⟨lp, p1, p2⟩ := pf.stderr
        have hres := pres
        rw [hr] at hres
        have pfiles := pf.files
        have pstdout := pf.stdout
        rw [hr] at pfiles pstdout
        refine ⟨?_, by rw [i2, pf.dirs, a1], by rw [i3, pf.stdoutOk, a4],
          by rw [i4, pf.stderrOk, a5],
          ⟨la ++ (lp ++ li), by simp [i5, p1, a7],
            guarded_append a8 (guarded_append p2 i6)⟩, ?_, ?_, ?_, ?_, ?_, ?_, ?_⟩
        · rw [i1, pf.dirs, pf.stdoutOk, pf.stderrOk, a1, a4, a5]
          simp [loopError, he, ← hres]
        · intro hs
          rw [i7 hs]
          funext p
          simp [pfiles p, hs, a2]
        · intro hs
          rw [i8 hs, pstdout]
          simp [hs, a3]
        · intro h
          rw [i9 h, pf.rendered, a6]
          simp [List.filter_cons, he]
        · intro h
          rw [i10 h]
          simp [List.filter_cons, he]
          omega
        · intro h
          rw [i11 h]
          simp [List.filter_cons, he]
        · intro h hs
          rw [i12 h hs, pstdout]
          simp [List.filter_cons, he, hs, a3]
        · intro h hs p
          rw [i13 h hs p, lastWritten]
          cases lastWritten env cmd es p with
          | some e1 => rfl
          | none =>
            dsimp only
            rw [pfiles p, a2]
            by_cases hp : artefactPath env cmd e = p
            · simp [he, hp, hs]
            · have hp2 : ¬ p = artefactPath env cmd e := fun h => hp h.symm
              simp [he, hp, hp2]
    · have he2 : eligible env e = false := by simpa using he
      rw [loop_skip cmd env e es s he2]
      have ih1 := ih { s with skipped := s.skipped + 1 }
      generalize cmd.loop env es { s with skipped := s.skipped + 1 } = out at ih1 ⊢
      obtain ⟨i1, i2, i3, i4, i5, i7, i8, i9, i10, i11, i12, i13⟩ := ih1
      dsimp only at i1 i2 i3 i4 i5 i7 i8 i9 i10 i11 i12 i13
      refine ⟨?_, i2, i3, i4, i5, i7, i8, ?_, ?_, ?_, ?_, ?_⟩
      · rw [i1]
        simp [loopError, he2]
      · intro h
        rw [i9 h]
        simp [List.filter_cons, he2]
      · intro h
        rw [i10 h]
        simp [List.filter_cons, he2]
      · intro h
        rw [i11 h]
        simp [List.filter_cons, he2]
        omega
      · intro h hs
        rw [i12 h hs]
        simp [List.filter_cons, he2]
      · intro h hs p
        rw [i13 h hs p, lastWritten]
        cases lastWritten env cmd es p with
        | some e1 => rfl
        | none => simp [he2]

/-! ## `filepath.Join` of the output directory and a plain file name -/

namespace filepath

theorem elems_ne_nil (cs : List Char) : elems cs ≠ [] := by
  cases cs with
  | nil => simp [elems]
  | cons c cs =>
    unfold elems
    split
    · simp
    · split <;> simp

theorem elems_append_slash (a b : List Char) :
    elems (a ++ '/' :: b) = elems a ++ elems b := by
  induction a with
  | nil => simp [elems]
  | cons c a ih =>
    by_cases hc : c = '/'
    · subst hc
      simp [elems, ih]
    · have h1 : elems (c :: (a ++ '/' :: b)) =
          match elems (a ++ '/' :: b) with
          | [] => [[c]]
          | x :: xs => (c :: x) :: xs := by
        rw [elems]
        simp [hc]
      have h2 : elems (c :: a) =
          match elems a with
          | [] => [[c]]
          | x :: xs => (c :: x) :: xs := by
        rw [elems]
        simp [hc]
      rw [List.cons_append, h1, h2, ih]
      cases h : elems a with
      | nil => exact absurd h (elems_ne_nil a)
      | cons x xs => rfl

theorem elems_of_no_slash (fn : List Char) (h : '/' ∉ fn) : elems fn = [fn] := by
  induction fn with
  | nil => rfl
  | cons c cs ih =>
    have hc : c ≠ '/' := fun hc => h (by simp [hc])
    have hcs : '/' ∉ cs := fun hcs => h (by simp [hcs])
    rw [elems]
    simp [hc, ih hcs]

theorem cleanStep_push (rooted : Bool) (stack : List (List Char)) (el : List Char)
    (h1 : el ≠ []) (h2 : el ≠ ['.']) (h3 : el ≠ ['.', '.']) :
    cleanStep rooted stack el = el :: stack := by
  unfold cleanStep
  simp [h1, h2, h3]

theorem cleanStack_append_slash (p fn : List Char) (hp : p ≠ []) (h1 : fn ≠ [])
    (h2 : fn ≠ ['.']) (h3 : fn ≠ ['.', '.']) (h4 : '/' ∉ fn) :
    cleanStack (p ++ '/' :: fn) = fn :: cleanStack p := by
  have hh : (p ++ '/' :: fn).head? = p.head? := by
    cases p with
    | nil => exact absurd rfl hp
    | cons c cs => rfl
  unfold cleanStack
  rw [elems_append_slash, elems_of_no_slash fn h4, List.foldl_append, hh]
  simp only [List.foldl_cons, List.foldl_nil]
  exact cleanStep_push _ _ _ h1 h2 h3

theorem intercalate_concat (sep : List Char) (l : List (List Char)) (x : List Char)
    (hl : l ≠ []) :
    List.intercalate sep (l ++ [x]) = List.intercalate sep l ++ sep ++ x := by
  induction l with
  | nil => exact absurd rfl hl
  | cons a l ih =>
    cases l with
    | nil => simp [List.intercalate, List.intersperse]
    | cons b l =>
      have ih2 := ih (by simp)
      simp only [List.intercalate, List.cons_append, List.intersperse,
        List.flatten_cons, List.append_assoc] at ih2 ⊢
      change a ++ (sep ++ (List.intersperse sep (b :: (l ++ [x]))).flatten) = _
      rw [ih2]

theorem intercalate_concat_ne_nil (sep : List Char) (l : List (List Char)) (x : List Char)
    (hx : x ≠ []) : List.intercalate sep (l ++ [x]) ≠ [] := by
  cases l with
  | nil => simpa [List.intercalate, List.intersperse] using hx
  | cons a l =>
    rw [intercalate_concat sep (a :: l) x (by simp)]
    simp [hx]

/-- Cleaning a path that ends in a kept element, followed by a slash and a plain name,
appends the slash and the name to the cleaned path. -/
theorem cleanChars_append_slash (p fn x : List Char) (st : List (List Char)) (hp : p ≠ [])
    (hst : cleanStack p = x :: st) (hx : x ≠ []) (h1 : fn ≠ [])
    (h2 : fn ≠ ['.']) (h3 : fn ≠ ['.', '.']) (h4 : '/' ∉ fn) :
    cleanChars (p ++ '/' :: fn) = cleanChars p ++ '/' :: fn := by
  have hh : (p ++ '/' :: fn).head? = p.head? := by
    cases p with
    | nil => exact absurd rfl hp
    | cons c cs => rfl
  have hne : p ++ '/' :: fn ≠ [] := by simp
  unfold cleanChars
  rw [if_neg hne, if_neg hp, hh, cleanStack_append_slash p fn hp h1 h2 h3 h4, hst]
  dsimp only
  have hrev : (fn :: x :: st).reverse = (x :: st).reverse ++ [fn] := by simp
  have hrev2 : (x :: st).reverse = st.reverse ++ [x] := by simp
  have hbody : List.intercalate ['/'] (fn :: x :: st).reverse =
      List.intercalate ['/'] (x :: st).reverse ++ '/' :: fn := by
    rw [hrev, intercalate_concat _ _ _ (by simp)]
    simp
  have hb2 : List.intercalate ['/'] (x :: st).reverse ≠ [] := by
    rw [hrev2]
    exact intercalate_concat_ne_nil _ _ _ hx
  rw [hbody]
  by_cases hr : p.head? = some '/'
  · rw [if_pos hr, if_pos hr]
    rfl
  · rw [if_neg hr, if_neg hr, if_neg hb2, if_neg (by simp)]

theorem src_chars : "src".toList = ['s', 'r', 'c'] := rfl

theorem cleanStack_src : cleanStack ['s', 'r', 'c'] = [['s', 'r', 'c']] := by decide

/-- The path of a plain file name under the output directory is the path of the
directory, a slash, and the name. -/
theorem Join_src_file (output fn : String) (h : plainName fn) :
    Join [output, "src", fn] = Join [output, "src"] ++ "/" ++ fn := by
  obtain ⟨h1, h2, h3, h4⟩ := h
  have hfn : fn ≠ "" := by
    intro hfn
    apply h1
    rw [hfn]
    rfl
  have hsrc : ("src" : String) ≠ "" := by decide
  by_cases ho : output = ""
  · subst ho
    have e1 : Join ["", "src", fn] =
        String.mk (cleanChars (['s', 'r', 'c'] ++ '/' :: fn.toList)) := by
      simp [Join, List.dropWhile, hsrc, Clean, List.intercalate, List.intersperse, src_chars]
    have e2 : Join ["", "src"] = String.mk (cleanChars ['s', 'r', 'c']) := by
      simp [Join, List.dropWhile, hsrc, Clean, List.intercalate, List.intersperse, src_chars]
    rw [e1, e2, cleanChars_append_slash _ _ _ _ (by simp) cleanStack_src (by simp) h1 h2 h3 h4]
    apply String.ext
    simp [String.toList]
  · have e1 : Join [output, "src", fn] =
        String.mk (cleanChars ((output.toList ++ '/' :: ['s', 'r', 'c']) ++ '/' :: fn.toList)) := by
      simp [Join, List.dropWhile, ho, Clean, List.intercalate, List.intersperse, src_chars]
    have e2 : Join [output, "src"] =
        String.mk (cleanChars (output.toList ++ '/' :: ['s', 'r', 'c'])) := by
      simp [Join, List.dropWhile, ho, Clean, List.intercalate, List.intersperse, src_chars]
    have ho2 : output.toList ≠ [] := by
      intro hnil
      apply ho
      apply String.ext
      exact hnil
    have hst : cleanStack (output.toList ++ '/' :: ['s', 'r', 'c']) =
        ['s', 'r', 'c'] :: cleanStack output.toList :=
      cleanStack_append_slash _ _ ho2 (by simp) (by simp) (by simp) (by decide)
    rw [e1, e2, cleanChars_append_slash _ _ _ _ (by simp) hst (by simp) h1 h2 h3 h4]
    apply String.ext
    simp [String.toList]

theorem Join_src_file_inj (output fn1 fn2 : String) (h1 : plainName fn1) (h2 : plainName fn2)
    (h : Join [output, "src", fn1] = Join [output, "src", fn2]) : fn1 = fn2 := by
  rw [Join_src_file output fn1 h1, Join_src_file output fn2 h2] at h
  have h3 := congrArg String.data h
  simp only [String.data_append, List.append_assoc, List.append_cancel_left_eq] at h3
  exact String.ext h3

end filepath

/-! ## The last example written to a path -/

theorem lastWritten_none_iff (env : Env) (cmd : SrcCommand) (xs : List Example) (p : String) :
    lastWritten env cmd xs p = none ↔
      ∀ e ∈ xs, eligible env e = true → artefactPath env cmd e ≠ p := by
  induction xs with
  | nil => simp [lastWritten]
  | cons e es ih =>
    rw [lastWritten]
    cases h : lastWritten env cmd es p with
    | some e1 =>
      simp only [false_iff, reduceCtorEq]
      intro hall
      rw [h] at ih
      exact absurd (ih.mpr (fun e2 he2 => hall e2 (List.mem_cons_of_mem _ he2))) (by simp)
    | none =>
      rw [h] at ih
      have ih1 := ih.mp rfl
      dsimp only
      constructor
      · intro hn e2 he2 hel
        rcases List.mem_cons.mp he2 with rfl | he2
        · intro hp
          rw [if_pos ⟨hel, hp⟩] at hn
          cases hn
        · exact ih1 e2 he2 hel
      · intro hall
        rw [if_neg]
        intro hc
        exact hall e (List.mem_cons_self _ _) hc.1 hc.2

theorem lastWritten_some (env : Env) (cmd : SrcCommand) (xs : List Example) (p : String)
    (e : Example) (h : lastWritten env cmd xs p = some e) :
    e ∈ xs ∧ eligible env e = true ∧ artefactPath env cmd e = p := by
  induction xs with
  | nil => simp [lastWritten] at h
  | cons x es ih =>
    rw [lastWritten] at h
    cases h1 : lastWritten env cmd es p with
    | some e1 =>
      rw [h1] at h ih
      dsimp only at h
      obtain ⟨i1, i2, i3⟩ := ih h
      exact ⟨List.mem_cons_of_mem _ i1, i2, i3⟩
    | none =>
      rw [h1] at h
      dsimp only at h
      by_cases hc : eligible env x = true ∧ artefactPath env cmd x = p
      · rw [if_pos hc] at h
        cases h
        exact ⟨List.mem_cons_self _ _, hc.1, hc.2⟩
      · rw [if_neg hc] at h
        cases h

theorem lastWritten_last (env : Env) (cmd : SrcCommand) (pre post : List Example)
    (e : Example) (he : eligible env e = true)
    (hpost : ∀ e2 ∈ post, eligible env e2 = true →
      artefactPath env cmd e2 ≠ artefactPath env cmd e) :
    lastWritten env cmd (pre ++ e :: post) (artefactPath env cmd e) = some e := by
  induction pre with
  | nil =>
    rw [List.nil_append, lastWritten,
      (lastWritten_none_iff env cmd post (artefactPath env cmd e)).mpr hpost]
    simp [he]
  | cons x pre ih =>
    rw [List.cons_append, lastWritten, ih]

/-! ## The loop over a list in two parts -/

theorem loop_append (cmd : SrcCommand) (env : Env) (xs ys : List Example) :
    ∀ s, cmd.loop env (xs ++ ys) s =
      match cmd.loop env xs s with
      | (none, s1) => cmd.loop env ys s1
      | (some err, s1) => (some err, s1) := by
  induction xs with
  | nil =>
    intro s
    rw [List.nil_append, loop_nil]
  | cons e es ih =>
    intro s
    rw [List.cons_append]
    by_cases he : eligible env e = true
    · cases hr : (cmd.processExample env e (announce env e s.world)).1 with
      | some err =>
        rw [loop_fail cmd env e _ s he err hr, loop_fail cmd env e _ s he err hr]
      | none =>
        rw [loop_step cmd env e _ s he hr, loop_step cmd env e _ s he hr, ih]
    · have he2 : eligible env e = false := by simpa using he
      rw [loop_skip cmd env e _ s he2, loop_skip cmd env e _ s he2, ih]

/-! ## `Execute`, phase by phase -/

theorem prepare_stdout (cmd : SrcCommand) (env : Env) (w : World) (hs : cmd.Output = "-") :
    cmd.prepare env w = (none, w) := by
  unfold SrcCommand.prepare
  rw [if_neg (by simp [hs])]

theorem mkdirChain_facts (chain : List String) (w : World) :
    (os.mkdirChain w chain).2.files = w.files ∧
    (os.mkdirChain w chain).2.stdout = w.stdout ∧
    (os.mkdirChain w chain).2.stdoutOk = w.stdoutOk ∧
    (os.mkdirChain w chain).2.stderr = w.stderr ∧
    (os.mkdirChain w chain).2.stderrOk = w.stderrOk ∧
    (os.mkdirChain w chain).2.rendered = w.rendered := by
  induction chain with
  | nil => exact ⟨rfl, rfl, rfl, rfl, rfl, rfl⟩
  | cons p up ih =>
    rw [os.mkdirChain]
    by_cases hd : w.dirs p = true
    · rw [if_pos hd]
      exact ⟨rfl, rfl, rfl, rfl, rfl, rfl⟩
    · rw [if_neg hd]
      cases hf : w.files p with
      | some b => exact ⟨rfl, rfl, rfl, rfl, rfl, rfl⟩
      | none =>
        dsimp only
        rcases hc : os.mkdirChain w up with ⟨_ | err, w1⟩
        · rw [hc] at ih
          exact ih
        · rw [hc] at ih
          exact ih

theorem mkdirChain_created (p : String) (up : List String) (w : World)
    (h : (os.mkdirChain w (p :: up)).1 = none) :
    (os.mkdirChain w (p :: up)).2.dirs p = true := by
  rw [os.mkdirChain] at h ⊢
  by_cases hd : w.dirs p = true
  · rw [if_pos hd]
    exact hd
  · rw [if_neg hd] at h ⊢
    cases hf : w.files p with
    | some b =>
      rw [hf] at h
      cases h
    | none =>
      rw [hf] at h
      dsimp only at h ⊢
      rcases hc : os.mkdirChain w up with ⟨_ | err, w1⟩
      · simp
      · rw [hc] at h
        cases h

theorem mkdirChain_present (p : String) (up : List String) (w : World)
    (h : w.dirs p = true) : os.mkdirChain w (p :: up) = (none, w) := by
  rw [os.mkdirChain, if_pos h]

theorem prepare_facts (cmd : SrcCommand) (env : Env) (w : World) :
    PrepareFacts cmd w (cmd.prepare env w).1 (cmd.prepare env w).2 := by
  by_cases hs : cmd.Output = "-"
  · rw [prepare_stdout cmd env w hs]
    exact ⟨rfl, rfl, rfl, rfl, rfl, rfl, fun _ h => absurd hs h, fun _ => ⟨rfl, rfl⟩⟩
  · have mf := mkdirChain_facts (filepath.Join [cmd.Output, "src"] ::
      (os.ancestors (filepath.Join [cmd.Output, "src"])).reverse) w
    have mc := mkdirChain_created (filepath.Join [cmd.Output, "src"])
      (os.ancestors (filepath.Join [cmd.Output, "src"])).reverse w
    have mp := mkdirChain_present (filepath.Join [cmd.Output, "src"])
      (os.ancestors (filepath.Join [cmd.Output, "src"])).reverse w
    unfold SrcCommand.prepare os.MkdirAll
    rw [if_pos hs]
    dsimp only
    rcases hc : os.mkdirChain w (filepath.Join [cmd.Output, "src"] ::
      (os.ancestors (filepath.Join [cmd.Output, "src"])).reverse) with ⟨_ | err, w1⟩
    · rw [hc] at mf mc mp
      dsimp only at mf mc mp ⊢
      obtain ⟨m1, m2, m3, m4, m5, m6⟩ := mf
      refine ⟨m1, m2, m3, m4, m5, m6, fun _ _ => mc rfl, fun h => ⟨rfl, ?_⟩⟩
      have := mp h
      exact (Prod.mk.inj this).2
    · rw [hc] at mf mp
      dsimp only at mf mp ⊢
      obtain ⟨m1, m2, m3, m4, m5, m6⟩ := mf
      refine ⟨m1, m2, m3, m4, m5, m6, (fun h => by cases h), fun h => ?_⟩
      have := mp h
      cases this

theorem load_of_file (cmd : SrcCommand) (env : Env) (w : World) (data : Bytes)
    (h : w.files cmd.Input = some data) :
    cmd.load env w =
      match env.Decode data with
      | .error err => .error ("error decoding input: " ++ err)
      | .ok examples => .ok examples := by
  unfold SrcCommand.load os.Open
  rw [h]

theorem load_of_missing (cmd : SrcCommand) (env : Env) (w : World)
    (h : w.files cmd.Input = none) : ∃ err, cmd.load env w = .error err := by
  unfold SrcCommand.load os.Open
  rw [h]
  dsimp only
  by_cases hd : w.dirs cmd.Input = true
  · rw [if_pos hd]
    exact ⟨_, rfl⟩
  · rw [if_neg hd]
    exact ⟨_, rfl⟩

theorem load_ok_file (cmd : SrcCommand) (env : Env) (w : World) (examples : List Example)
    (h : cmd.load env w = .ok examples) :
    ∃ data, w.files cmd.Input = some data ∧ env.Decode data = .ok examples := by
  cases hf : w.files cmd.Input with
  | none =>
    obtain ⟨err, herr⟩ := load_of_missing cmd env w hf
    rw [herr] at h
    cases h
  | some data =>
    refine ⟨data, rfl, ?_⟩
    rw [load_of_file cmd env w data hf] at h
    cases hd : env.Decode data with
    | error err => rw [hd] at h; cases h
    | ok xs => rw [hd] at h; cases h; rfl

theorem Execute_prepare_error (cmd : SrcCommand) (env : Env) (w : World) (err : String)
    (h : (cmd.prepare env w).1 = some err) :
    cmd.Execute env w = (some err, (cmd.prepare env w).2) := by
  unfold SrcCommand.Execute
  rcases hp : cmd.prepare env w with ⟨r, w1⟩
  rw [hp] at h
  dsimp only at h
  subst h
  rfl

theorem Execute_load_error (cmd : SrcCommand) (env : Env) (w : World) (err : String)
    (hp : (cmd.prepare env w).1 = none) (h : cmd.load env (cmd.prepare env w).2 = .error err) :
    cmd.Execute env w = (some err, (cmd.prepare env w).2) := by
  unfold SrcCommand.Execute
  rcases hpp : cmd.prepare env w with ⟨r, w1⟩
  rw [hpp] at hp h
  dsimp only at hp h
  subst hp
  dsimp only
  rw [h]

theorem Execute_loop (cmd : SrcCommand) (env : Env) (w : World) (examples : List Example)
    (hp : (cmd.prepare env w).1 = none)
    (h : cmd.load env (cmd.prepare env w).2 = .ok examples) :
    cmd.Execute env w =
      match cmd.loop env examples ⟨(cmd.prepare env w).2, 0, 0⟩ with
      | (some err, s) => (some err, s.world)
      | (none, s) => (none, report env s) := by
  unfold SrcCommand.Execute
  rcases hpp : cmd.prepare env w with ⟨r, w1⟩
  rw [hpp] at hp h
  dsimp only at hp h
  subst hp
  dsimp only
  rw [h]

theorem Execute_loop_ok (cmd : SrcCommand) (env : Env) (w : World) (examples : List Example)
    (hp : (cmd.prepare env w).1 = none)
    (h : cmd.load env (cmd.prepare env w).2 = .ok examples)
    (hl : (cmd.loop env examples ⟨(cmd.prepare env w).2, 0, 0⟩).1 = none) :
    cmd.Execute env w =
      (none, report env (cmd.loop env examples ⟨(cmd.prepare env w).2, 0, 0⟩).2) := by
  rw [Execute_loop cmd env w examples hp h]
  rcases hll : cmd.loop env examples ⟨(cmd.prepare env w).2, 0, 0⟩ with ⟨r, s⟩
  rw [hll] at hl
  dsimp only at hl
  subst hl
  rfl

theorem Execute_loop_error (cmd : SrcCommand) (env : Env) (w : World)
    (examples : List Example) (err : String)
    (hp : (cmd.prepare env w).1 = none)
    (h : cmd.load env (cmd.prepare env w).2 = .ok examples)
    (hl : (cmd.loop env examples ⟨(cmd.prepare env w).2, 0, 0⟩).1 = some err) :
    cmd.Execute env w =
      (some err, (cmd.loop env examples ⟨(cmd.prepare env w).2, 0, 0⟩).2.world) := by
  rw [Execute_loop cmd env w examples hp h]
  rcases hll : cmd.loop env examples ⟨(cmd.prepare env w).2, 0, 0⟩ with ⟨r, s⟩
  rw [hll] at hl
  dsimp only at hl
  subst hl
  rfl

/-- A run that returns no error went through the three phases without one. -/
theorem Execute_ok_phases (cmd : SrcCommand) (env : Env) (w : World)
    (h : (cmd.Execute env w).1 = none) :
    (cmd.prepare env w).1 = none ∧ ∃ examples,
      cmd.load env (cmd.prepare env w).2 = .ok examples ∧
      (cmd.loop env examples ⟨(cmd.prepare env w).2, 0, 0⟩).1 = none := by
  cases hp : (cmd.prepare env w).1 with
  | some err =>
    rw [Execute_prepare_error cmd env w err hp] at h
    cases h
  | none =>
    refine ⟨rfl, ?_⟩
    cases hl : cmd.load env (cmd.prepare env w).2 with
    | error err =>
      rw [Execute_load_error cmd env w err hp hl] at h
      cases h
    | ok examples =>
      refine ⟨examples, rfl, ?_⟩
      cases hr : (cmd.loop env examples ⟨(cmd.prepare env w).2, 0, 0⟩).1 with
      | some err =>
        rw [Execute_loop_error cmd env w examples err hp hl hr] at h
        cases h
      | none => rfl

/-! ## Runs that succeed -/

theorem loopError_none (env : Env) (cmd : SrcCommand) (dirs : String → Bool)
    (errOk outOk : Bool) (xs : List Example)
    (h : loopError env cmd dirs errOk outOk xs = none) :
    ∀ e ∈ xs, eligible env e = true → exampleError env cmd e dirs errOk outOk = none := by
  induction xs with
  | nil =>
    intro e he
    simp at he
  | cons x xs ih =>
    intro e he hel
    rw [loopError] at h
    by_cases hx : eligible env x = true
    · rw [if_pos hx] at h
      cases hxe : exampleError env cmd x dirs errOk outOk with
      | some err =>
        rw [hxe] at h
        cases h
      | none =>
        rw [hxe] at h
        rcases List.mem_cons.mp he with rfl | he
        · exact hxe
        · exact ih h e he hel
    · rw [if_neg hx] at h
      rcases List.mem_cons.mp he with rfl | he
      · exact absurd hel hx
      · exact ih h e he hel

/-- An example that raises no error has final bytes: the rendered bytes, or the result
of `imports.Process` on them when `GofmtSource` is set. -/
theorem finalBytes_of_no_error (env : Env) (cmd : SrcCommand) (e : Example)
    (dirs : String → Bool) (errOk outOk : Bool)
    (h : exampleError env cmd e dirs errOk outOk = none) :
    if cmd.GofmtSource then env.Process (env.Output e) = .ok (finalBytes env cmd e)
    else finalBytes env cmd e = env.Output e := by
  unfold exampleError at h
  unfold finalBytes
  cases hg : gofmtResult env cmd e with
  | error err =>
    rw [hg] at h
    cases h
  | ok b =>
    dsimp only
    unfold gofmtResult at hg
    by_cases hgo : cmd.GofmtSource = true
    · rw [if_pos hgo] at hg ⊢
      exact hg
    · rw [if_neg hgo] at hg ⊢
      exact (Except.ok.inj hg).symm

/-! ## The run as a whole -/

theorem filter_count (p : Example → Bool) (xs : List Example) :
    (xs.filter p).length + (xs.filter (fun e => !p e)).length = xs.length := by
  induction xs with
  | nil => rfl
  | cons x xs ih =>
    cases h : p x <;> simp [List.filter_cons, h] <;> omega

theorem report_summary (env : Env) (s : LoopState) (h : s.world.stderrOk = true) :
    ∃ l, (report env s).stderr = s.world.stderr ++ l ∧
      ErrEvent.Fprintln (separator env) ∈ l ∧
      ErrEvent.Fprintf ("Processed " ++ toString s.processed ++ " examples, skipped " ++
        toString s.skipped ++ " examples in " ++ env.Elapsed ++ "\n") ∈ l := by
  unfold report ttyEscape os.ErrWrite
  cases env.IsTTY
  · refine ⟨[ErrEvent.Fprintln (separator env), ErrEvent.Fprintf ("Processed " ++
      toString s.processed ++ " examples, skipped " ++ toString s.skipped ++
      " examples in " ++ env.Elapsed ++ "\n")], ?_, ?_, ?_⟩
    · simp [h]
    · simp
    · simp
  · refine ⟨[ErrEvent.Fprint "\x1b[2m", ErrEvent.Fprintln (separator env),
      ErrEvent.Fprintf ("Processed " ++
      toString s.processed ++ " examples, skipped " ++ toString s.skipped ++
      " examples in " ++ env.Elapsed ++ "\n"), ErrEvent.Fprint "\x1b[0m"], ?_, ?_, ?_⟩
    · simp [h]
    · simp
    · simp

/-- What a run that gets to the loop leaves, in terms of the state the loop ends in. -/
theorem Execute_after_load (cmd : SrcCommand) (env : Env) (w : World) (data : Bytes)
    (examples : List Example) (hin : w.files cmd.Input = some data)
    (hdec : env.Decode data = .ok examples) :
    cmd.load env (cmd.prepare env w).2 = .ok examples := by
  rw [load_of_file cmd env _ data (by rw [(prepare_facts cmd env w).files, hin]), hdec]

theorem Execute_ok_loop (cmd : SrcCommand) (env : Env) (w : World) (data : Bytes)
    (examples : List Example) (hin : w.files cmd.Input = some data)
    (hdec : env.Decode data = .ok examples) (hok : (cmd.Execute env w).1 = none) :
    (cmd.prepare env w).1 = none ∧
    (cmd.loop env examples ⟨(cmd.prepare env w).2, 0, 0⟩).1 = none ∧
    cmd.Execute env w =
      (none, report env (cmd.loop env examples ⟨(cmd.prepare env w).2, 0, 0⟩).2) := by
  obtain ⟨hp, xs, hl, hr⟩ := Execute_ok_phases cmd env w hok
  have hl2 := Execute_after_load cmd env w data examples hin hdec
  rw [hl2] at hl
  cases hl
  exact ⟨hp, hr, Execute_loop_ok cmd env w examples hp hl2 hr⟩

/-! ## The copy of the preview -/

theorem debugStage_copy (env : Env) (cmd : SrcCommand) (out : Bytes) (w : World)
    (hd : cmd.DebugSource = true) (hc : cmd.ColorizeSource = false)
    (hse : w.stderrOk = true) (hne : out ≠ []) :
    (debugStage env cmd out w).1 = .ok out ∧
      ErrEvent.Copy out ∈ (debugStage env cmd out w).2.stderr := by
  have hk : (previewHead env w).stderrOk = true := by
    rw [previewHead_stderrOk, hse]
  have key : debugStage env cmd out w =
      match os.CopyStderr (previewHead env w) out with
      | (some err, w) => (.error ("error copying output: " ++ err), w)
      | (none, w) => (.ok out, os.ErrWrite w (ErrEvent.Fprintf "\n\n")) := by
    unfold debugStage previewHead
    simp only [hd, hc, if_true]
    rfl
  rw [key]
  generalize previewHead env w = v at hk
  unfold os.CopyStderr os.ErrWrite
  simp [hne, hk]

theorem gofmtStage_ok_world (env : Env) (cmd : SrcCommand) (out b : Bytes) (w : World)
    (h : (gofmtStage env cmd out w).1 = .ok b) : (gofmtStage env cmd out w).2 = w := by
  unfold gofmtStage at h ⊢
  dsimp only at h ⊢
  by_cases hg : cmd.GofmtSource = true
  · rw [if_pos hg] at h ⊢
    cases hp : env.Process out with
    | error err =>
      rw [hp] at h
      dsimp only at h
      split at h <;> cases h
    | ok bout => rfl
  · rw [if_neg hg]

/-- With the preview on and highlighting off, a call that succeeds on a working
diagnostic stream has copied the final bytes to it in one piece. -/
theorem processExample_preview_copy (env : Env) (cmd : SrcCommand) (e : Example) (w : World)
    (hok : (cmd.processExample env e w).1 = none)
    (hd : cmd.DebugSource = true) (hc : cmd.ColorizeSource = false)
    (hse : w.stderrOk = true) (hne : finalBytes env cmd e ≠ []) :
    ErrEvent.Copy (finalBytes env cmd e) ∈ (cmd.processExample env e w).2.stderr := by
  unfold SrcCommand.processExample at hok ⊢
  dsimp only at hok ⊢
  generalize hw1 : ({ w with rendered := w.rendered ++ [e] } : World) = w1 at hok ⊢
  have e6 : w1.stderrOk = true := by rw [← hw1]; exact hse
  have hg1 := gofmtStage_fst env cmd e w1
  have hg2 := gofmtStage_ok_world env cmd (env.Output e) (b := finalBytes env cmd e) w1
  rcases hgs : gofmtStage env cmd (env.Output e) w1 with ⟨r1, w2⟩
  rw [hgs] at hg1 hg2 hok
  dsimp only at hg1 hg2 hok
  cases r1 with
  | error err => cases hok
  | ok b =>
    dsimp only at hok ⊢
    have hfb : finalBytes env cmd e = b := by
      unfold finalBytes
      rw [← hg1]
    rw [hfb] at hg2 hne ⊢
    have hw2 : w2 = w1 := hg2 rfl
    subst hw2
    obtain ⟨c1, c2⟩ := debugStage_copy env cmd b w2 hd hc e6 hne
    rcases hds : debugStage env cmd b w2 with ⟨r2, w3⟩
    rw [hds] at c1 c2 hok
    dsimp only at c1 c2 hok
    subst c1
    dsimp only at hok ⊢
    by_cases hs : cmd.Output = "-"
    · rw [(writeStage_stdout cmd _ b w3 hs).2.2.2.2.2.1]
      exact c2
    · rw [(writeStage_file cmd _ b w3 hs).2.2.2.2.2.1]
      exact c2

/-! ## The claims -/

set_option maxRecDepth 100000

/-- C1: on a decoded list of examples on which no example fails, `Execute` hands to
`processExample` exactly the examples with `Enabled()` and `Executable()` both true, in
document order; it ends with `processed` their number and `skipped` the number of the
others, which add up to the length of the list and are printed in the summary; an
example that is not eligible is never rendered, and the loop steps over it with no
error, counting it in `skipped` only. -/
theorem execute_processes_exactly_the_eligible (cmd : SrcCommand) (env : Env) (w : World)
    (data : Bytes) (examples : List Example)
    (hin : w.files cmd.Input = some data) (hdec : env.Decode data = .ok examples)
    (hok : (cmd.Execute env w).1 = none) :
    (cmd.Execute env w).2.rendered = w.rendered ++ examples.filter (eligible env) ∧
    (cmd.Execute env w).2 =
      report env (cmd.loop env examples ⟨(cmd.prepare env w).2, 0, 0⟩).2 ∧
    (cmd.loop env examples ⟨(cmd.prepare env w).2, 0, 0⟩).2.processed =
      (examples.filter (eligible env)).length ∧
    (cmd.loop env examples ⟨(cmd.prepare env w).2, 0, 0⟩).2.skipped =
      (examples.filter (fun e => !eligible env e)).length ∧
    (cmd.loop env examples ⟨(cmd.prepare env w).2, 0, 0⟩).2.processed +
      (cmd.loop env examples ⟨(cmd.prepare env w).2, 0, 0⟩).2.skipped = examples.length ∧
    (w.stderrOk = true → ErrEvent.Fprintf ("Processed " ++
        toString (examples.filter (eligible env)).length ++ " examples, skipped " ++
        toString (examples.filter (fun e => !eligible env e)).length ++ " examples in " ++
        env.Elapsed ++ "\n") ∈ (cmd.Execute env w).2.stderr) ∧
    (∀ e, (env.Enabled e = false ∨ env.Executable e = false) →
      e ∈ (cmd.Execute env w).2.rendered → e ∈ w.rendered) ∧
    (∀ e es s, (env.Enabled e = false ∨ env.Executable e = false) →
      cmd.loop env (e :: es) s = cmd.loop env es { s with skipped := s.skipped + 1 }) := by
  obtain ⟨hp, hl, hx⟩ := Execute_ok_loop cmd env w data examples hin hdec hok
  have lf := loop_facts env cmd examples ⟨(cmd.prepare env w).2, 0, 0⟩
  have pf := prepare_facts cmd env w
  have rf := report_onlyStderr env (cmd.loop env examples ⟨(cmd.prepare env w).2, 0, 0⟩).2
  have hren : (cmd.Execute env w).2.rendered =
      w.rendered ++ examples.filter (eligible env) := by
    rw [hx]
    dsimp only
    rw [rf.2.2.2.2.2.1, lf.rendered hl]
    dsimp only
    rw [pf.rendered]
  have hproc := lf.processed hl
  have hskip := lf.skipped hl
  dsimp only at hproc hskip
  rw [Nat.zero_add] at hproc hskip
  have hinel : ∀ e, (env.Enabled e = false ∨ env.Executable e = false) →
      eligible env e = false := by
    intro e he
    unfold eligible
    rcases he with he | he <;> simp [he]
  refine ⟨hren, by rw [hx], hproc, hskip, ?_, ?_, ?_, ?_⟩
  · rw [hproc, hskip]
    exact filter_count (eligible env) examples
  · intro hse
    have hse2 : (cmd.loop env examples ⟨(cmd.prepare env w).2, 0, 0⟩).2.world.stderrOk =
        true := by
      rw [lf.stderrOk]
      dsimp only
      rw [pf.stderrOk, hse]
    obtain ⟨l, h1, _, h3⟩ := report_summary env _ hse2
    rw [hproc, hskip] at h3
    rw [hx]
    dsimp only
    rw [h1]
    exact List.mem_append_right _ h3
  · intro e he hmem
    rw [hren] at hmem
    rcases List.mem_append.mp hmem with h | h
    · exact h
    · have := (List.mem_filter.mp h).2
      rw [hinel e he] at this
      cases this
  · intro e es s he
    exact loop_skip cmd env e es s (hinel e he)

/-- C1 on the document of two examples, the first enabled and the second disabled: one
example is rendered, one is processed and one is skipped. -/
theorem execute_processes_exactly_the_eligible_witness :
    world0.files cmdFile.Input = some [1] ∧
    (specEnv false 3).Decode [1] = .ok [exampleA, exampleB] ∧
    (cmdFile.Execute (specEnv false 3) world0).1 = none ∧
    (cmdFile.Execute (specEnv false 3) world0).2.rendered = [exampleA] ∧
    (cmdFile.loop (specEnv false 3) [exampleA, exampleB]
      ⟨(cmdFile.prepare (specEnv false 3) world0).2, 0, 0⟩).2.processed = 1 ∧
    (cmdFile.loop (specEnv false 3) [exampleA, exampleB]
      ⟨(cmdFile.prepare (specEnv false 3) world0).2, 0, 0⟩).2.skipped = 1 :=
  have h := execute_processes_exactly_the_eligible cmdFile (specEnv false 3) world0 [1]
    [exampleA, exampleB] (by decide) (by rfl) (by decide)
  ⟨by decide, by rfl, by decide, h.1, h.2.2.1, h.2.2.2.1⟩

/-- C2: when `processExample` returns no error, the bytes it delivers to the primary
writer (standard output, or the artefact file) are exactly the bytes of
`SrcGenerator.Output()` when `GofmtSource` is false, and exactly the result of
`imports.Process` on them when it is true, for every setting of `DebugSource` and
`ColorizeSource`: the preview hands on the bytes it was given, and without
highlighting it copies the same bytes to the diagnostic stream. -/
theorem processExample_delivers_final_bytes (cmd : SrcCommand) (env : Env) (e : Example)
    (w : World) (hok : (cmd.processExample env e w).1 = none) :
    ∃ delivered,
      (if cmd.GofmtSource then env.Process (env.Output e) = .ok delivered
        else delivered = env.Output e) ∧
      (cmd.Output = "-" → (cmd.processExample env e w).2.stdout = w.stdout ++ delivered) ∧
      (cmd.Output ≠ "-" →
        (cmd.processExample env e w).2.files (artefactPath env cmd e) = some delivered) ∧
      (∀ w2, (debugStage env cmd delivered w2).1 = .ok delivered ∨
        ∃ err, (debugStage env cmd delivered w2).1 = .error err) ∧
      (cmd.DebugSource = true → cmd.ColorizeSource = false → w.stderrOk = true →
        delivered ≠ [] →
        ErrEvent.Copy delivered ∈ (cmd.processExample env e w).2.stderr) := by
  have pf := processExample_facts env cmd e w
  have hres := pf.result
  rw [hok] at hres
  have hg : gofmtResult env cmd e = .ok (finalBytes env cmd e) := by
    unfold exampleError at hres
    unfold finalBytes
    cases h : gofmtResult env cmd e with
    | error err => rw [h] at hres; cases hres
    | ok b => rfl
  refine ⟨finalBytes env cmd e, ?_, ?_, ?_, ?_,
    processExample_preview_copy env cmd e w hok⟩
  · unfold gofmtResult at hg
    by_cases h : cmd.GofmtSource = true
    · rw [if_pos h] at hg ⊢
      exact hg
    · rw [if_neg h] at hg ⊢
      exact (Except.ok.inj hg).symm
  · intro hs
    rw [pf.stdout, if_pos ⟨hok, hs⟩]
  · intro hs
    rw [pf.files, if_pos ⟨hok, hs, rfl⟩]
  · intro w2
    cases h : (debugStage env cmd (finalBytes env cmd e) w2).1 with
    | error err => exact Or.inr ⟨err, rfl⟩
    | ok b =>
      left
      rw [debugStage_ok env cmd _ b w2 h]

/-- C2 with the preview and normalization on standard output: the call succeeds and the
stream receives the normalized bytes, which the diagnostic stream received too. -/
theorem processExample_delivers_final_bytes_witness :
    (cmdPreview.processExample (specEnv true 3) exampleA world0).1 = none ∧
    (cmdPreview.processExample (specEnv true 3) exampleA world0).2.stdout =
      SrcGenerator.Output exampleA ++ [10] ∧
    ErrEvent.Copy (SrcGenerator.Output exampleA ++ [10]) ∈
      (cmdPreview.processExample (specEnv true 3) exampleA world0).2.stderr := by
  obtain ⟨d, h1, h2, _, _, h5⟩ := processExample_delivers_final_bytes cmdPreview
    (specEnv true 3) exampleA world0 (by decide)
  have hp : (specEnv true 3).Process ((specEnv true 3).Output exampleA) =
      .ok (SrcGenerator.Output exampleA ++ [10]) := by rfl
  have h1b : (specEnv true 3).Process ((specEnv true 3).Output exampleA) = .ok d := h1
  have hd : d = SrcGenerator.Output exampleA ++ [10] := by
    rw [hp] at h1b
    exact (Except.ok.inj h1b).symm
  subst hd
  exact ⟨by decide, h2 (by decide), h5 (by decide) (by decide) (by decide) (by simp)⟩

/-- C4: with the output `-`, `Execute` creates no directory and creates or writes no
file, whatever the input and however the run ends; and when the run succeeds, standard
output has received the final bytes of the eligible examples, concatenated in document
order; the final bytes of an example are its rendered bytes, or the result of
`imports.Process` on them when `GofmtSource` is set. -/
theorem stdout_target_writes_no_file (cmd : SrcCommand) (env : Env) (w : World)
    (hs : cmd.Output = "-") :
    (cmd.Execute env w).2.dirs = w.dirs ∧
    (cmd.Execute env w).2.files = w.files ∧
    ∀ data examples, w.files cmd.Input = some data → env.Decode data = .ok examples →
      (cmd.Execute env w).1 = none →
      (cmd.Execute env w).2.stdout =
        w.stdout ++ ((examples.filter (eligible env)).map (finalBytes env cmd)).flatten ∧
      ∀ e ∈ examples, eligible env e = true →
        if cmd.GofmtSource then env.Process (env.Output e) = .ok (finalBytes env cmd e)
        else finalBytes env cmd e = env.Output e := by
  have hprep : cmd.prepare env w = (none, w) := prepare_stdout cmd env w hs
  have hp : (cmd.prepare env w).1 = none := by rw [hprep]
  have hw : (cmd.prepare env w).2 = w := by rw [hprep]
  refine ⟨?_, ?_, ?_⟩
  · cases hl : cmd.load env (cmd.prepare env w).2 with
    | error err => rw [Execute_load_error cmd env w err hp hl, hw]
    | ok examples =>
      have lf := loop_facts env cmd examples ⟨(cmd.prepare env w).2, 0, 0⟩
      cases hr : (cmd.loop env examples ⟨(cmd.prepare env w).2, 0, 0⟩).1 with
      | some err =>
        rw [Execute_loop_error cmd env w examples err hp hl hr]
        dsimp only
        rw [lf.dirs]
        dsimp only
        rw [hw]
      | none =>
        rw [Execute_loop_ok cmd env w examples hp hl hr]
        dsimp only
        rw [(report_onlyStderr env _).1, lf.dirs]
        dsimp only
        rw [hw]
  · cases hl : cmd.load env (cmd.prepare env w).2 with
    | error err => rw [Execute_load_error cmd env w err hp hl, hw]
    | ok examples =>
      have lf := loop_facts env cmd examples ⟨(cmd.prepare env w).2, 0, 0⟩
      cases hr : (cmd.loop env examples ⟨(cmd.prepare env w).2, 0, 0⟩).1 with
      | some err =>
        rw [Execute_loop_error cmd env w examples err hp hl hr]
        dsimp only
        rw [lf.keepFiles hs]
        dsimp only
        rw [hw]
      | none =>
        rw [Execute_loop_ok cmd env w examples hp hl hr]
        dsimp only
        rw [(report_onlyStderr env _).2.1, lf.keepFiles hs]
        dsimp only
        rw [hw]
  · intro data examples hin hdec hok
    obtain ⟨_, hl, hx⟩ := Execute_ok_loop cmd env w data examples hin hdec hok
    have lf := loop_facts env cmd examples ⟨(cmd.prepare env w).2, 0, 0⟩
    have hres := lf.result
    rw [hl] at hres
    refine ⟨?_, fun e he hel => finalBytes_of_no_error env cmd e _ _ _
      (loopError_none env cmd _ _ _ _ hres.symm e he hel)⟩
    rw [hx]
    dsimp only
    rw [(report_onlyStderr env _).2.2.1, lf.stdout hl hs]
    dsimp only
    rw [hw]

/-- C4 with one eligible example among two: no directory, no file, and the normalized
bytes of the eligible example on standard output. -/
theorem stdout_target_writes_no_file_witness :
    cmdStdout.Output = "-" ∧
    (cmdStdout.Execute (specEnv true 3) world0).1 = none ∧
    (cmdStdout.Execute (specEnv true 3) world0).2.dirs = world0.dirs ∧
    (cmdStdout.Execute (specEnv true 3) world0).2.files = world0.files ∧
    (cmdStdout.Execute (specEnv true 3) world0).2.stdout =
      world0.stdout ++ (([exampleA, exampleB].filter (eligible (specEnv true 3))).map
        (finalBytes (specEnv true 3) cmdStdout)).flatten :=
  have h := stdout_target_writes_no_file cmdStdout (specEnv true 3) world0 (by decide)
  ⟨by decide, by decide, h.1, h.2.1, (h.2.2 [1] [exampleA, exampleB] (by decide) (by rfl)
    (by decide)).1⟩

/-- C6: when the input file cannot be opened, or its content does not decode to a list
of examples, `Execute` returns an error before any output: no example is rendered, no
file is created or written, and nothing is written to standard output; the diagnostic
stream has received nothing either. What the run may have made by then is the output
directory with its parents, which `os.MkdirAll` creates before the input is opened. -/
theorem load_error_leaves_no_output (cmd : SrcCommand) (env : Env) (w : World)
    (hbad : w.files cmd.Input = none ∨
      ∃ data err, w.files cmd.Input = some data ∧ env.Decode data = .error err) :
    (∃ msg, (cmd.Execute env w).1 = some msg) ∧
    (cmd.Execute env w).2.rendered = w.rendered ∧
    (cmd.Execute env w).2.files = w.files ∧
    (cmd.Execute env w).2.stdout = w.stdout ∧
    (cmd.Execute env w).2.stderr = w.stderr := by
  have pf := prepare_facts cmd env w
  have hex : ∃ msg, cmd.Execute env w = (some msg, (cmd.prepare env w).2) := by
    cases hp : (cmd.prepare env w).1 with
    | some err => exact ⟨err, Execute_prepare_error cmd env w err hp⟩
    | none =>
      have hl : ∃ err, cmd.load env (cmd.prepare env w).2 = .error err := by
        rcases hbad with h | ⟨data, err, h1, h2⟩
        · exact load_of_missing cmd env _ (by rw [pf.files, h])
        · refine ⟨"error decoding input: " ++ err, ?_⟩
          rw [load_of_file cmd env _ data (by rw [pf.files, h1]), h2]
      obtain ⟨err, hl⟩ := hl
      exact ⟨err, Execute_load_error cmd env w err hp hl⟩
  obtain ⟨msg, hx⟩ := hex
  rw [hx]
  exact ⟨⟨msg, rfl⟩, pf.rendered, pf.files, pf.stdout, pf.stderr⟩

/-- C6 on a document that does not decode. -/
theorem load_error_leaves_no_output_witness :
    world0.files cmdBroken.Input = some [4] ∧
    (specEnv false 3).Decode [4] = .error "invalid character" ∧
    (cmdBroken.Execute (specEnv false 3) world0).1 =
      some "error decoding input: invalid character" ∧
    (cmdBroken.Execute (specEnv false 3) world0).2.rendered = world0.rendered ∧
    (cmdBroken.Execute (specEnv false 3) world0).2.files = world0.files ∧
    (cmdBroken.Execute (specEnv false 3) world0).2.stdout = world0.stdout ∧
    (cmdBroken.Execute (specEnv false 3) world0).2.stderr = world0.stderr :=
  have h := load_error_leaves_no_output cmdBroken (specEnv false 3) world0
    (Or.inr ⟨[4], "invalid character", by decide, by rfl⟩)
  ⟨by decide, by rfl, by decide, h.2.1, h.2.2.1, h.2.2.2.1, h.2.2.2.2⟩

/-- C10: when the processing of an example fails before the write step, in the
normalization pass or in the preview (highlighting, or a copy to the diagnostic stream),
`processExample` returns that error, neither creates nor truncates a file and writes
nothing to standard output: every file keeps the content it had. -/
theorem failed_example_writes_nothing (cmd : SrcCommand) (env : Env) (e : Example)
    (w : World) (err : String)
    (hfail : (cmd.GofmtSource = true ∧ env.Process (env.Output e) = .error err) ∨
      ∃ b, (if cmd.GofmtSource then env.Process (env.Output e) = .ok b
          else b = env.Output e) ∧
        (debugStage env cmd b w).1 = .error err) :
    (cmd.processExample env e w).1 = some err ∧
    (cmd.processExample env e w).2.files = w.files ∧
    (cmd.processExample env e w).2.stdout = w.stdout ∧
    (cmd.processExample env e w).2.dirs = w.dirs := by
  have pf := processExample_facts env cmd e w
  have hres : (cmd.processExample env e w).1 = some err := by
    rw [pf.result]
    unfold exampleError
    rcases hfail with ⟨hg, hp⟩ | ⟨b, hb, hd⟩
    · have : gofmtResult env cmd e = .error err := by
        unfold gofmtResult
        rw [if_pos hg, hp]
      rw [this]
    · have : gofmtResult env cmd e = .ok b := by
        unfold gofmtResult
        by_cases hg : cmd.GofmtSource = true
        · rw [if_pos hg] at hb ⊢
          exact hb
        · rw [if_neg hg] at hb ⊢
          rw [hb]
      rw [this]
      dsimp only
      rw [← debugStage_fst env cmd b w, hd]
  refine ⟨hres, ?_, ?_, pf.dirs⟩
  · funext p
    rw [pf.files p, hres, if_neg (by simp)]
  · rw [pf.stdout, hres, if_neg (by simp)]

/-- C10 with an artefact of an earlier run at the path of the example, for each cause:
the normalization pass rejects the rendered text; the highlighter fails; the diagnostic
stream accepts no write. The artefact keeps its content each time. -/
theorem failed_example_writes_nothing_witness :
    worldOld.files (artefactPath (specEnv false 3) cmdAbort exampleBad) = some [8, 8, 8] ∧
    (cmdAbort.processExample (specEnv false 3) exampleBad worldOld).1 =
      some "example_test.go:33:1: illegal character NUL" ∧
    (cmdAbort.processExample (specEnv false 3) exampleBad worldOld).2.files =
      worldOld.files ∧
    (cmdAbort.processExample (specEnv false 3) exampleBad worldOld).2.stdout =
      worldOld.stdout ∧
    worldOld.files (artefactPath envNoLexer cmdColorFile exampleA) = some [7, 7] ∧
    (cmdColorFile.processExample envNoLexer exampleA worldOld).1 =
      some "error syntax highligting the output: no lexer for go" ∧
    (cmdColorFile.processExample envNoLexer exampleA worldOld).2.files = worldOld.files ∧
    worldMute.files (artefactPath (specEnv false 3) cmdDebugFile exampleA) = some [7, 7] ∧
    (cmdDebugFile.processExample (specEnv false 3) exampleA worldMute).1 =
      some "error copying output: write /dev/stderr: file already closed" ∧
    (cmdDebugFile.processExample (specEnv false 3) exampleA worldMute).2.files =
      worldMute.files :=
  have h1 := failed_example_writes_nothing cmdAbort (specEnv false 3) exampleBad worldOld
    "example_test.go:33:1: illegal character NUL" (Or.inl ⟨by decide, by rfl⟩)
  have h2 := failed_example_writes_nothing cmdColorFile envNoLexer exampleA worldOld
    "error syntax highligting the output: no lexer for go"
    (Or.inr ⟨envNoLexer.Output exampleA, rfl, by rfl⟩)
  have h3 := failed_example_writes_nothing cmdDebugFile (specEnv false 3) exampleA worldMute
    "error copying output: write /dev/stderr: file already closed"
    (Or.inr ⟨(specEnv false 3).Output exampleA, rfl, by rfl⟩)
  ⟨by decide, h1.1, h1.2.1, h1.2.2.1, by decide, h2.1, h2.2.1, by decide, h3.1, h3.2.1⟩

/-- C7, the counterexample: with `utils.IsTTY()` false, a run on the document without
examples writes the separator line to the diagnostic stream, three `━` when the terminal
width is three and an empty line when it is zero; and a run on an example whose digest
holds the bytes of an escape code writes them to the diagnostic stream, in the line that
announces the example. -/
theorem separator_written_without_tty :
    (specEnv false 3).IsTTY = false ∧
    (cmdEmpty.Execute (specEnv false 3) world0).1 = none ∧
    (cmdEmpty.Execute (specEnv false 3) world0).2.stderr =
      [ErrEvent.Fprintln "━━━",
        ErrEvent.Fprintf "Processed 0 examples, skipped 0 examples in 0s\n"] ∧
    (cmdEmpty.Execute (specEnv false 0) world0).2.stderr =
      [ErrEvent.Fprintln "",
        ErrEvent.Fprintf "Processed 0 examples, skipped 0 examples in 0s\n"] ∧
    exampleEsc.Digest = "\x1b[0m" ∧
    (cmdEsc.Execute (specEnv false 3) world0).2.stderr =
      [ErrEvent.Fprintln "━━━",
        ErrEvent.Fprintf ("Processing example " ++
          (specEnv false 3).Quote ((specEnv false 3).ID exampleEsc) ++ " @ " ++
          "\x1b[0m" ++ "\n"),
        ErrEvent.Fprintln "━━━",
        ErrEvent.Fprintf "Processed 1 examples, skipped 0 examples in 0s\n"] := by
  decide

/-- C7, amended: of the writes of a run to the diagnostic stream, every `fmt.Fprint`
call writes one of the escape codes `\x1b[2m` and `\x1b[0m` and is made only when
`utils.IsTTY()` is true; every `fmt.Fprintln` call writes the separator line, and it is
made whether or not `utils.IsTTY()` is true: every run that succeeds on a working
diagnostic stream makes it. The other writes are `fmt.Fprintf`, `io.Copy` and
`utils.PrintSourceWithErr` calls, whose text is not looked at. The same holds of the
writes of one call of `processExample`. -/
theorem escape_codes_only_on_tty (cmd : SrcCommand) (env : Env) (w : World) :
    (∃ l, (cmd.Execute env w).2.stderr = w.stderr ++ l ∧
      (∀ s, ErrEvent.Fprint s ∈ l →
        env.IsTTY = true ∧ (s = "\x1b[2m" ∨ s = "\x1b[0m")) ∧
      (∀ s, ErrEvent.Fprintln s ∈ l → s = separator env) ∧
      ((cmd.Execute env w).1 = none → w.stderrOk = true →
        ErrEvent.Fprintln (separator env) ∈ l)) ∧
    (∀ e, ∃ l, (cmd.processExample env e w).2.stderr = w.stderr ++ l ∧
      (∀ s, ErrEvent.Fprint s ∈ l →
        env.IsTTY = true ∧ (s = "\x1b[2m" ∨ s = "\x1b[0m")) ∧
      (∀ s, ErrEvent.Fprintln s ∈ l → s = separator env)) := by
  constructor
  swap
  · intro e
    obtain ⟨l, h1, h2⟩ := (processExample_facts env cmd e w).stderr
    exact ⟨l, h1, guarded_Fprint h2, guarded_Fprintln h2⟩
  have pf := prepare_facts cmd env w
  cases hp : (cmd.prepare env w).1 with
  | some err =>
    rw [Execute_prepare_error cmd env w err hp]
    exact ⟨[], by simp [pf.stderr], by simp, by simp, fun h => by cases h⟩
  | none =>
    cases hl : cmd.load env (cmd.prepare env w).2 with
    | error err =>
      rw [Execute_load_error cmd env w err hp hl]
      exact ⟨[], by simp [pf.stderr], by simp, by simp, fun h => by cases h⟩
    | ok examples =>
      have lf := loop_facts env cmd examples ⟨(cmd.prepare env w).2, 0, 0⟩
      obtain ⟨ll, l1, l2⟩ := lf.stderr
      dsimp only at l1
      rw [pf.stderr] at l1
      cases hr : (cmd.loop env examples ⟨(cmd.prepare env w).2, 0, 0⟩).1 with
      | some err =>
        rw [Execute_loop_error cmd env w examples err hp hl hr]
        exact ⟨ll, l1, guarded_Fprint l2, guarded_Fprintln l2, fun h => by cases h⟩
      | none =>
        rw [Execute_loop_ok cmd env w examples hp hl hr]
        dsimp only
        obtain ⟨_, _, _, _, _, _, lr, r1, r2⟩ := report_onlyStderr env
          (cmd.loop env examples ⟨(cmd.prepare env w).2, 0, 0⟩).2
        have hg := guarded_append l2 r2
        refine ⟨ll ++ lr, by rw [r1, l1, List.append_assoc], guarded_Fprint hg,
          guarded_Fprintln hg, ?_⟩
        intro _ hse
        have hse2 : (cmd.loop env examples ⟨(cmd.prepare env w).2, 0, 0⟩).2.world.stderrOk =
            true := by
          rw [lf.stderrOk]
          dsimp only
          rw [pf.stderrOk, hse]
        obtain ⟨l3, h1, h2, _⟩ := report_summary env _ hse2
        have : lr = l3 := List.append_cancel_left (r1.symm.trans h1)
        rw [this]
        exact List.mem_append_right _ h2

/-- C3: with a file output target, when example `k` of the decoded list is eligible, the
normalization pass fails on its rendered text, and the examples before it are processed
without error, `Execute` returns the error naming the `ID()` of example `k`; the files
are those the examples before `k` left, so each eligible one of them has its artefact on
disk, holding the final bytes of the last of them written to its path; and the examples
rendered are the eligible ones before `k` and example `k`, none after it. -/
theorem execute_aborts_at_first_failure (cmd : SrcCommand) (env : Env) (w : World)
    (data : Bytes) (examples : List Example) (k : Nat) (e : Example) (err : String)
    (hs : cmd.Output ≠ "-")
    (hin : w.files cmd.Input = some data) (hdec : env.Decode data = .ok examples)
    (hprep : (cmd.prepare env w).1 = none)
    (hk : examples[k]? = some e) (he : eligible env e = true)
    (hg : cmd.GofmtSource = true) (hfail : env.Process (env.Output e) = .error err)
    (hpre : (cmd.loop env (examples.take k) ⟨(cmd.prepare env w).2, 0, 0⟩).1 = none) :
    (cmd.Execute env w).1 =
      some ("error processing example " ++ env.ID e ++ ": " ++ err) ∧
    (cmd.Execute env w).2.files =
      (cmd.loop env (examples.take k) ⟨(cmd.prepare env w).2, 0, 0⟩).2.world.files ∧
    (∀ p, (cmd.Execute env w).2.files p =
      match lastWritten env cmd (examples.take k) p with
      | some e1 => some (finalBytes env cmd e1)
      | none => w.files p) ∧
    (∀ j ej, j < k → examples[j]? = some ej → eligible env ej = true →
      ∃ e1, e1 ∈ examples.take k ∧ eligible env e1 = true ∧
        artefactPath env cmd e1 = artefactPath env cmd ej ∧
        (cmd.Execute env w).2.files (artefactPath env cmd ej) =
          some (finalBytes env cmd e1)) ∧
    (cmd.Execute env w).2.rendered =
      w.rendered ++ (examples.take k).filter (eligible env) ++ [e] ∧
    (∀ e1 ∈ examples.take k, eligible env e1 = true →
      if cmd.GofmtSource then env.Process (env.Output e1) = .ok (finalBytes env cmd e1)
      else finalBytes env cmd e1 = env.Output e1) := by
  have pf := prepare_facts cmd env w
  have hl := Execute_after_load cmd env w data examples hin hdec
  have hklt : k < examples.length := by
    by_contra hcon
    rw [List.getElem?_eq_none (by omega)] at hk
    cases hk
  have hsplit : examples = examples.take k ++ e :: examples.drop (k + 1) := by
    have h1 : examples.drop k = e :: examples.drop (k + 1) := by
      rw [List.drop_eq_getElem_cons hklt]
      congr 1
      rw [List.getElem?_eq_getElem hklt] at hk
      exact Option.some.inj hk
    rw [← h1, List.take_append_drop]
  have lf := loop_facts env cmd (examples.take k) ⟨(cmd.prepare env w).2, 0, 0⟩
  generalize hs1 : (cmd.loop env (examples.take k) ⟨(cmd.prepare env w).2, 0, 0⟩) = r1
    at hpre lf
  obtain ⟨r, s1⟩ := r1
  dsimp only at hpre lf
  subst hpre
  have prf := processExample_facts env cmd e (announce env e s1.world)
  obtain ⟨a1, a2, a3, a4, a5, a6, _⟩ := announce_onlyStderr env e s1.world
  have hperr : (cmd.processExample env e (announce env e s1.world)).1 = some err := by
    rw [prf.result]
    unfold exampleError gofmtResult
    rw [if_pos hg, hfail]
  have hloop : cmd.loop env examples ⟨(cmd.prepare env w).2, 0, 0⟩ =
      (some ("error processing example " ++ env.ID e ++ ": " ++ err),
        { s1 with world := (cmd.processExample env e (announce env e s1.world)).2 }) := by
    conv_lhs => rw [hsplit]
    rw [loop_append, hs1]
    dsimp only
    exact loop_fail cmd env e _ s1 he err hperr
  have hx := Execute_loop_error cmd env w examples _ hprep hl (by rw [hloop])
  rw [hloop] at hx
  dsimp only at hx
  have hfiles : (cmd.processExample env e (announce env e s1.world)).2.files =
      s1.world.files := by
    funext p
    rw [prf.files p, hperr, if_neg (by simp), a2]
  have hlast : ∀ p, s1.world.files p =
      match lastWritten env cmd (examples.take k) p with
      | some e1 => some (finalBytes env cmd e1)
      | none => w.files p := by
    intro p
    rw [lf.files rfl hs p]
    dsimp only
    rw [pf.files]
  have hres := lf.result
  refine ⟨by rw [hx], by rw [hx]; exact hfiles, ?_, ?_, ?_,
    fun e1 he1 hel1 => finalBytes_of_no_error env cmd e1 _ _ _
      (loopError_none env cmd _ _ _ _ hres.symm e1 he1 hel1)⟩
  · intro p
    rw [hx]
    dsimp only
    rw [hfiles, hlast p]
  · intro j ej hj hjk hej
    have hmem : ej ∈ examples.take k := by
      rw [List.mem_iff_getElem?]
      refine ⟨j, ?_⟩
      rw [List.getElem?_take_of_lt hj]
      exact hjk
    cases hlw : lastWritten env cmd (examples.take k) (artefactPath env cmd ej) with
    | none =>
      exact absurd rfl ((lastWritten_none_iff env cmd _ _).mp hlw ej hmem hej)
    | some e1 =>
      obtain ⟨m1, m2, m3⟩ := lastWritten_some env cmd _ _ e1 hlw
      refine ⟨e1, m1, m2, m3, ?_⟩
      rw [hx]
      dsimp only
      rw [hfiles, hlast, hlw]
  · rw [hx]
    dsimp only
    rw [prf.rendered, a6, lf.rendered rfl]
    dsimp only
    rw [pf.rendered]

/-- C3 on the document whose second example is rejected by the normalization pass: the
run ends with the error naming it, the artefact of the first example is on disk, and the
third example is neither rendered nor written. -/
theorem execute_aborts_at_first_failure_witness :
    (cmdAbort.Execute (specEnv false 3) world0).1 =
      some ("error processing example " ++ (specEnv false 3).ID exampleBad ++ ": " ++
        "example_test.go:33:1: illegal character NUL") ∧
    (specEnv false 3).ID exampleBad = "docs-bad_bad" ∧
    (cmdAbort.Execute (specEnv false 3) world0).2.files
        (artefactPath (specEnv false 3) cmdAbort exampleA) =
      some (finalBytes (specEnv false 3) cmdAbort exampleA) ∧
    (cmdAbort.Execute (specEnv false 3) world0).2.rendered =
      world0.rendered ++ ([exampleA, exampleBad, exampleA].take 1).filter
        (eligible (specEnv false 3)) ++ [exampleBad] :=
  have h := execute_aborts_at_first_failure cmdAbort (specEnv false 3) world0 [2]
    [exampleA, exampleBad, exampleA] 1 exampleBad
    "example_test.go:33:1: illegal character NUL"
    (by decide) (by decide) (by rfl) (by decide) (by rfl) (by decide) (by decide) (by rfl)
    (by decide)
  ⟨h.1, by decide, (h.2.2.1 _).trans (by rfl), h.2.2.2.2.1⟩

/-- C5: on a successful run with a file output target, the final bytes of each eligible
example are in the file at `filepath.Join(Output, "src", Filename())`, which for a plain
file name is the directory `filepath.Join(Output, "src")`, a slash and the name; the
directory exists once `prepare` is done, before the loop; after the run the file holds
exactly the final bytes of the last eligible example with that path (with that
`Filename()`, when the names are plain), whatever it held before; no other file is
touched, and nothing is written to standard output. -/
theorem artefacts_written_under_output_src (cmd : SrcCommand) (env : Env) (w : World)
    (data : Bytes) (examples : List Example) (hs : cmd.Output ≠ "-")
    (hin : w.files cmd.Input = some data) (hdec : env.Decode data = .ok examples)
    (hok : (cmd.Execute env w).1 = none) :
    (cmd.prepare env w).2.dirs (filepath.Join [cmd.Output, "src"]) = true ∧
    (cmd.Execute env w).2.dirs (filepath.Join [cmd.Output, "src"]) = true ∧
    (∀ e, plainName (env.Filename e) → artefactPath env cmd e =
      filepath.Join [cmd.Output, "src"] ++ "/" ++ env.Filename e) ∧
    (∀ e ∈ examples, eligible env e = true →
      if cmd.GofmtSource then env.Process (env.Output e) = .ok (finalBytes env cmd e)
      else finalBytes env cmd e = env.Output e) ∧
    (∀ pre e post, examples = pre ++ e :: post → eligible env e = true →
      (∀ e2 ∈ post, eligible env e2 = true →
        artefactPath env cmd e2 ≠ artefactPath env cmd e) →
      (cmd.Execute env w).2.files (artefactPath env cmd e) =
        some (finalBytes env cmd e)) ∧
    ((∀ e ∈ examples, eligible env e = true → plainName (env.Filename e)) →
      ∀ pre e post, examples = pre ++ e :: post → eligible env e = true →
        (∀ e2 ∈ post, eligible env e2 = true → env.Filename e2 ≠ env.Filename e) →
        (cmd.Execute env w).2.files (artefactPath env cmd e) =
          some (finalBytes env cmd e)) ∧
    (∀ p, (∀ e ∈ examples, eligible env e = true → artefactPath env cmd e ≠ p) →
      (cmd.Execute env w).2.files p = w.files p) ∧
    (cmd.Execute env w).2.stdout = w.stdout := by
  obtain ⟨hp, hl, hx⟩ := Execute_ok_loop cmd env w data examples hin hdec hok
  have pf := prepare_facts cmd env w
  have lf := loop_facts env cmd examples ⟨(cmd.prepare env w).2, 0, 0⟩
  have rf := report_onlyStderr env (cmd.loop env examples ⟨(cmd.prepare env w).2, 0, 0⟩).2
  have hfiles : ∀ p, (cmd.Execute env w).2.files p =
      match lastWritten env cmd examples p with
      | some e => some (finalBytes env cmd e)
      | none => w.files p := by
    intro p
    rw [hx]
    dsimp only
    rw [rf.2.1, lf.files hl hs p]
    dsimp only
    rw [pf.files]
  have hlast : ∀ pre e post, examples = pre ++ e :: post → eligible env e = true →
      (∀ e2 ∈ post, eligible env e2 = true →
        artefactPath env cmd e2 ≠ artefactPath env cmd e) →
      (cmd.Execute env w).2.files (artefactPath env cmd e) =
        some (finalBytes env cmd e) := by
    intro pre e post hsplit he hpost
    rw [hfiles, hsplit, lastWritten_last env cmd pre post e he hpost]
  have hres := lf.result
  rw [hl] at hres
  refine ⟨pf.created hp hs, ?_, ?_, ?_, hlast, ?_, ?_, ?_⟩
  · rw [hx]
    dsimp only
    rw [rf.1, lf.dirs]
    exact pf.created hp hs
  · intro e hplain
    exact filepath.Join_src_file cmd.Output (env.Filename e) hplain
  · intro e he hel
    exact finalBytes_of_no_error env cmd e _ _ _ (loopError_none env cmd _ _ _ _ hres.symm e he hel)
  · intro hplain pre e post hsplit he hpost
    refine hlast pre e post hsplit he ?_
    intro e2 he2 hel2 hpath
    have hm2 : e2 ∈ examples := by
      rw [hsplit]
      exact List.mem_append_right _ (List.mem_cons_of_mem _ he2)
    have hm : e ∈ examples := by
      rw [hsplit]
      exact List.mem_append_right _ (List.mem_cons_self _ _)
    exact hpost e2 he2 hel2 (filepath.Join_src_file_inj cmd.Output _ _
      (hplain e2 hm2 hel2) (hplain e hm he) hpath)
  · intro p hp2
    rw [hfiles, (lastWritten_none_iff env cmd examples p).mpr hp2]
  · rw [hx]
    dsimp only
    rw [rf.2.2.1, lf.keepStdout hs]
    dsimp only
    rw [pf.stdout]

/-- C5 on the document of two examples, with an artefact of an earlier run at the path
of the first: the file is replaced by the rendered bytes, in the directory `out/src`. -/
theorem artefacts_written_under_output_src_witness :
    (cmdFile.Execute (specEnv false 3) worldOld).1 = none ∧
    worldOld.files "out/src/docs-get_abc_test.go" = some [7, 7] ∧
    artefactPath (specEnv false 3) cmdFile exampleA = "out/src/docs-get_abc_test.go" ∧
    (cmdFile.Execute (specEnv false 3) worldOld).2.dirs "out/src" = true ∧
    (cmdFile.Execute (specEnv false 3) worldOld).2.files
        (artefactPath (specEnv false 3) cmdFile exampleA) =
      some (finalBytes (specEnv false 3) cmdFile exampleA) ∧
    finalBytes (specEnv false 3) cmdFile exampleA = SrcGenerator.Output exampleA ∧
    (cmdFile.Execute (specEnv false 3) worldOld).2.stdout = worldOld.stdout :=
  have h := artefacts_written_under_output_src cmdFile (specEnv false 3) worldOld [1]
    [exampleA, exampleB] (by decide) (by decide) (by rfl) (by decide)
  ⟨by decide, by decide, by decide, h.2.1,
    h.2.2.2.2.1 [] exampleA [exampleB] rfl (by decide) (by decide), by rfl, h.2.2.2.2.2.2.2⟩

/-- C8, the counterexample: the input document lies at the artefact path of its first
example; the first run succeeds and overwrites it with the rendered source, so the
second run, on the files the first left, fails to decode its input. -/
theorem second_run_fails_on_overwritten_input :
    cmdClobber.Output ≠ "-" ∧ cmdClobber.GofmtSource = false ∧
    (cmdClobber.Execute (specEnv false 3) worldClobber).1 = none ∧
    (cmdClobber.Execute (specEnv false 3)
      (cmdClobber.Execute (specEnv false 3) worldClobber).2).1 =
        some "error decoding input: invalid character" := by
  decide

/-- C8, amended: with a file output target, when a first run succeeds and leaves the
input file with the content it had, a second run on the environment the first one left
succeeds too and leaves the same files with the same contents, and the same
directories: the output directory is found and the artefacts are written again with
the bytes they hold. The normalization pass is a function of the rendered text. -/
theorem second_run_leaves_the_same_files (cmd : SrcCommand) (env : Env) (w : World)
    (hs : cmd.Output ≠ "-") (hok : (cmd.Execute env w).1 = none)
    (hkeep : (cmd.Execute env w).2.files cmd.Input = w.files cmd.Input) :
    (cmd.Execute env (cmd.Execute env w).2).1 = none ∧
    (cmd.Execute env (cmd.Execute env w).2).2.files = (cmd.Execute env w).2.files ∧
    (cmd.Execute env (cmd.Execute env w).2).2.dirs = (cmd.Execute env w).2.dirs := by
  obtain ⟨hp, examples, hload, hl⟩ := Execute_ok_phases cmd env w hok
  have hx := Execute_loop_ok cmd env w examples hp hload hl
  obtain ⟨data, hin1, hdec⟩ := load_ok_file cmd env _ examples hload
  have pf := prepare_facts cmd env w
  have lf := loop_facts env cmd examples ⟨(cmd.prepare env w).2, 0, 0⟩
  obtain ⟨r1, r2, r3, r4, r5, r6, _⟩ :=
    report_onlyStderr env (cmd.loop env examples ⟨(cmd.prepare env w).2, 0, 0⟩).2
  have hres := lf.result
  rw [hl] at hres
  dsimp only at hres
  rw [pf.files] at hin1
  generalize hw1 : (cmd.Execute env w).2 = w1 at hkeep ⊢
  have e1 : w1.dirs = (cmd.prepare env w).2.dirs := by
    rw [← hw1, hx]
    dsimp only
    rw [r1, lf.dirs]
  have e2 : w1.stderrOk = (cmd.prepare env w).2.stderrOk := by
    rw [← hw1, hx]
    dsimp only
    rw [r5, lf.stderrOk]
  have e3 : w1.stdoutOk = (cmd.prepare env w).2.stdoutOk := by
    rw [← hw1, hx]
    dsimp only
    rw [r4, lf.stdoutOk]
  have e4 : ∀ p, w1.files p =
      match lastWritten env cmd examples p with
      | some e => some (finalBytes env cmd e)
      | none => (cmd.prepare env w).2.files p := by
    intro p
    rw [← hw1, hx]
    dsimp only
    rw [r2, lf.files hl hs p]
  have pf1 := prepare_facts cmd env w1
  obtain ⟨q1, q2⟩ := pf1.present (by rw [e1]; exact pf.created hp hs)
  have hload1 : cmd.load env (cmd.prepare env w1).2 = .ok examples := by
    rw [q2, load_of_file cmd env w1 data (by rw [hkeep, hin1]), hdec]
  have lf1 := loop_facts env cmd examples ⟨(cmd.prepare env w1).2, 0, 0⟩
  have hl1 : (cmd.loop env examples ⟨(cmd.prepare env w1).2, 0, 0⟩).1 = none := by
    rw [lf1.result]
    dsimp only
    rw [q2, e1, e2, e3]
    exact hres.symm
  have hx1 := Execute_loop_ok cmd env w1 examples q1 hload1 hl1
  obtain ⟨t1, t2, _⟩ :=
    report_onlyStderr env (cmd.loop env examples ⟨(cmd.prepare env w1).2, 0, 0⟩).2
  refine ⟨by rw [hx1], ?_, ?_⟩
  · rw [hx1]
    dsimp only
    rw [t2]
    funext p
    rw [lf1.files hl1 hs p]
    dsimp only
    rw [q2, e4 p]
    cases lastWritten env cmd examples p with
    | some e => rfl
    | none => rfl
  · rw [hx1]
    dsimp only
    rw [t1, lf1.dirs]
    dsimp only
    rw [q2]

/-- C8, amended, on the document of two examples: the second run succeeds and leaves
the files and the directories of the first. -/
theorem second_run_leaves_the_same_files_witness :
    cmdFile.Output ≠ "-" ∧
    (cmdFile.Execute (specEnv false 3) world0).1 = none ∧
    (cmdFile.Execute (specEnv false 3) world0).2.files cmdFile.Input =
      world0.files cmdFile.Input ∧
    (cmdFile.Execute (specEnv false 3) (cmdFile.Execute (specEnv false 3) world0).2).1 =
      none ∧
    (cmdFile.Execute (specEnv false 3) (cmdFile.Execute (specEnv false 3) world0).2).2.files =
      (cmdFile.Execute (specEnv false 3) world0).2.files ∧
    (cmdFile.Execute (specEnv false 3) (cmdFile.Execute (specEnv false 3) world0).2).2.dirs =
      (cmdFile.Execute (specEnv false 3) world0).2.dirs :=
  have h := second_run_leaves_the_same_files cmdFile (specEnv false 3) world0 (by decide)
    (by decide) (by decide)
  ⟨by decide, by decide, by decide, h.1, h.2.1, h.2.2⟩

theorem utf8_append (a b : String) : utf8 (a ++ b) = utf8 a ++ utf8 b := by
  unfold utf8
  rw [String.data_append, List.flatMap_append]

theorem occursIn_append (needle pre post : Bytes) :
    occursIn needle (pre ++ needle ++ post) = true := by
  induction pre with
  | nil =>
    cases hn : needle ++ post with
    | nil =>
      obtain ⟨h1, h2⟩ := List.append_eq_nil.mp hn
      subst h1
      subst h2
      rfl
    | cons h t =>
      have hp : needle.isPrefixOf (needle ++ post) = true := by
        rw [List.isPrefixOf_iff_prefix]
        exact List.prefix_append _ _
      rw [List.nil_append, hn] at *
      simp [occursIn, hp]
  | cons a pre ih =>
    rw [List.cons_append, List.cons_append, occursIn, ih, Bool.or_true]

/-- C9, the counterexample: with the flags at their defaults the normalization pass is
on; for an example whose body is `res,err:=es.Info()` the call succeeds and the artefact
holds the unit as `gofmt` writes it, with the line `res, err := es.Info()` between the
markers: the body of the example does not occur in the artefact byte for byte. -/
theorem normalized_artefact_lacks_the_body :
    cmdDefault.GofmtSource = true ∧
    exampleTerse.Body = "res,err:=es.Info()" ∧
    (cmdDefault.processExample envGofmt exampleTerse worldOld).1 = none ∧
    (cmdDefault.processExample envGofmt exampleTerse worldOld).2.files
        (artefactPath envGofmt cmdDefault exampleTerse) =
      some (SrcGenerator.Output exampleFormatted) ∧
    ¬ ∃ pre post, SrcGenerator.Output exampleFormatted =
      pre ++ utf8 exampleTerse.Body ++ post := by
  refine ⟨by decide, by decide, by decide, by decide, ?_⟩
  rintro ⟨pre, post, h⟩
  have h1 := occursIn_append (utf8 exampleTerse.Body) pre post
  rw [← h] at h1
  exact absurd h1 (by decide)

/-- C9, amended: the rendered source unit of an example holds the marker comments
`tag:<digest>[]` and `end:<digest>[]` of its digest, each in a comment of its own line,
with the tagged body between them byte for byte; a call of `processExample` that
succeeds writes that unit as it is when `GofmtSource` is false, and the result of
`imports.Process` on that unit when `GofmtSource` is true. -/
theorem rendered_unit_has_markers_around_body (e : Example) :
    (∃ pre post, SrcGenerator.Output e =
      pre ++ utf8 "// " ++ utf8 ("tag:" ++ e.Digest ++ "[]") ++ utf8 "\n" ++
        utf8 e.Body ++
        utf8 "\n\t// " ++ utf8 ("end:" ++ e.Digest ++ "[]") ++ utf8 "\n" ++ post) ∧
    (∀ (cmd : SrcCommand) (env : Env) (w : World), env.Output = SrcGenerator.Output →
      (cmd.processExample env e w).1 = none →
      ∃ written,
        (cmd.Output = "-" → (cmd.processExample env e w).2.stdout = w.stdout ++ written) ∧
        (cmd.Output ≠ "-" →
          (cmd.processExample env e w).2.files (artefactPath env cmd e) = some written) ∧
        (cmd.GofmtSource = false → written = SrcGenerator.Output e) ∧
        (cmd.GofmtSource = true →
          env.Process (SrcGenerator.Output e) = .ok written)) := by
  refine ⟨⟨utf8 SrcGenerator.header ++ utf8 (SrcGenerator.comment e) ++
    utf8 ("func " ++ SrcGenerator.testName e ++ "(t *testing.T) \x7b\n" ++
      "\tes, _ := elasticsearch.NewDefaultClient()\n\n\t"), utf8 SrcGenerator.footer, ?_⟩, ?_⟩
  · simp only [SrcGenerator.Output, SrcGenerator.function, List.append_assoc]
  intro cmd env w hout hok
  have pf := processExample_facts env cmd e w
  have hres := pf.result
  rw [hok] at hres
  have hfin := finalBytes_of_no_error env cmd e _ _ _ hres.symm
  rw [hout] at hfin
  refine ⟨finalBytes env cmd e, ?_, ?_, ?_, ?_⟩
  · intro hs
    rw [pf.stdout, if_pos ⟨hok, hs⟩]
  · intro hs
    rw [pf.files, if_pos ⟨hok, hs, rfl⟩]
  · intro hg
    rw [if_neg (by simp [hg])] at hfin
    exact hfin
  · intro hg
    rw [if_pos hg] at hfin
    exact hfin

/-- C9, amended, on the example of a committed artefact: the rendered unit is the
artefact `docs-get_138ccd89f72aa7502dd9578403dcc589_test.go` as committed, it holds the
body between the markers of the digest, and a run with normalization off writes it to
the artefact path, in the output directory of an earlier run. -/
theorem rendered_unit_has_markers_around_body_witness :
    SrcGenerator.Output docsGetExample = utf8 docsGetArtefact ∧
    (∃ pre post, SrcGenerator.Output docsGetExample =
      pre ++ utf8 "// " ++ utf8 "tag:138ccd89f72aa7502dd9578403dcc589[]" ++ utf8 "\n" ++
        utf8 docsGetExample.Body ++
        utf8 "\n\t// " ++ utf8 "end:138ccd89f72aa7502dd9578403dcc589[]" ++ utf8 "\n" ++
        post) ∧
    worldOld.dirs "out/src" = true ∧
    (cmdFile.processExample (specEnv false 3) docsGetExample worldOld).1 = none ∧
    (cmdFile.processExample (specEnv false 3) docsGetExample worldOld).2.files
        (artefactPath (specEnv false 3) cmdFile docsGetExample) =
      some (SrcGenerator.Output docsGetExample) := by
  have h := rendered_unit_has_markers_around_body docsGetExample
  obtain ⟨written, _, h2, h3, _⟩ := h.2 cmdFile (specEnv false 3) worldOld rfl (by decide)
  have hH : SrcGenerator.header = docsGetHead := by decide
  have hC : SrcGenerator.comment docsGetExample = docsGetComment := by decide
  have hF : SrcGenerator.function docsGetExample = utf8 docsGetFunction := by decide
  refine ⟨?_, h.1, by decide, by decide, ?_⟩
  · rw [SrcGenerator.Output, hH, hC, hF, docsGetArtefact, utf8_append, utf8_append]
  · rw [h2 (by decide), h3 (by decide)]

end GenExamples
